import Mathlib

/-!
Shallow embedding of the server-side graph state of the `rain` task-graph
workflow manager (files `src/server/state.rs`, `src/server/graph/graph.rs`,
`src/server/rpc/bootstrap.rs`), together with theorems settling the claims
about it.

Conventions of the embedding:
* Rust `HashSet` fields become duplicate-free `List`s: `insert` is
  `sinsert` (no-op when present), `remove` is `sremove` (filter), `len` is
  `length`, and iteration follows the list order — one admissible order for
  a hash set, whose iteration order is unspecified.
* Rust `HashMap<Id, Ref>` maps become a `List` of ids plus a total lookup
  function updated with `Function.update`.
* Panicking paths (`assert!`, `panic!`, `unwrap` on `None`, `unimplemented!`)
  become `Except.error`; graph-mutating code runs in the monad `SM` below,
  which threads the state, may fail, and records the emitted worker RPC calls
  (and a few call markers) as a trace of events.
* `check_consistency_opt` calls are gated on the `RAIN_DEBUG_MODE` mode flag
  and are no-ops when it is unset (the release semantics); they are embedded
  as no-ops.  The non-gated per-entity `check_consistency` used by
  `verify_submit` is not part of the sources here, so it is modelled from the
  spec (see `DataObject.check_consistency` and `Task.check_consistency`).
-/

namespace Rain

/-- Network address, Rust `SocketAddr`.  An IP is modelled as a `Nat`, with
`0` standing for the unspecified address (`0.0.0.0`, for which Rust's
`is_unspecified` returns true). -/
structure SocketAddr where
  ip : Nat
  port : Nat
deriving DecidableEq

/-- WorkerId is the worker's network address (`common::id`). -/
abbrev WorkerId := SocketAddr

/-- Task ids are (session, index) pairs in the source; they are opaque here. -/
abbrev TaskId := Nat

/-- Data object ids are (session, index) pairs in the source; opaque here. -/
abbrev DataObjectId := Nat

/-- Task states, `server::graph::TaskState`. -/
inductive TaskState where
  | NotAssigned
  | Ready
  | Assigned
  | Running
  | Finished
  | Failed
deriving DecidableEq

/-- Data object states, `server::graph::DataObjectState`. -/
inductive DataObjectState where
  | Unfinished
  | Finished
  | Removed
deriving DecidableEq

/-- A data object node of the graph (`server::graph::DataObject`).  The
`label`, `object_type` and opaque metadata byte strings are irrelevant to the
claims; `additional` is kept as an opaque `Nat` because the update paths
write it. -/
structure DataObject where
  state : DataObjectState
  client_keep : Bool
  producer : Option TaskId
  consumers : List TaskId
  data : Option (List Nat)
  size : Option Nat
  additional : Nat
  located : List WorkerId
  assigned : List WorkerId
  scheduled : List WorkerId
  finish_hooks : List Nat
deriving DecidableEq

/-- A task node of the graph (`server::graph::Task`).  `task_type` and
`task_config` are irrelevant to the claims. -/
structure Task where
  state : TaskState
  session : Nat
  inputs : List DataObjectId
  outputs : List DataObjectId
  waiting_for : List DataObjectId
  scheduled : Option WorkerId
  assigned : Option WorkerId
  additional : Nat
  finish_hooks : List Nat
deriving DecidableEq

/-- A worker entry of the graph (`server::graph::Worker`). -/
structure Worker where
  resources : Nat
  error : Option Nat
  assigned_tasks : List TaskId
  scheduled_ready_tasks : List TaskId
  assigned_objects : List DataObjectId
  located_objects : List DataObjectId
  scheduled_objects : List DataObjectId
deriving DecidableEq

/-- The entity store (`server::graph::Graph`): id sets plus total lookup
functions standing for the id-to-entity hash maps. -/
structure Graph where
  workerIds : List WorkerId
  workerOf : WorkerId → Worker
  taskIds : List TaskId
  taskOf : TaskId → Task
  objectIds : List DataObjectId
  objectOf : DataObjectId → DataObject

/-- The server state (`server::state::State`): the graph plus the scheduler
update set `updates : UpdatedIn` (its `new_tasks` and `new_objects` fields
are written only by `add_task` and `add_object`, which no claim touches, so
only the `tasks` and `objects` fields are kept). -/
structure State where
  graph : Graph
  updatedTasks : List TaskId
  updatedObjects : DataObjectId → List WorkerId

/-- Observable events of a run: the outbound worker RPC calls spawned by the
state driver, plus markers that record that `update_task_assignment` was
invoked and that an entity's finish hooks were triggered (used to reason
about the order of effects). -/
inductive Ev where
  | rpcAddNodes (w : WorkerId)
  | rpcUnassignObjects (w : WorkerId)
  | rpcStopTasks (w : WorkerId)
  | updateTaskAssignmentCalled (t : TaskId)
  | taskFinishHooksTriggered (t : TaskId)
  | objectFinishHooksTriggered (o : DataObjectId)
deriving DecidableEq

/-- The state-mutation monad: threads the `State`, may abort (a Rust panic or
a bail), and records the trace of emitted events. -/
def SM (α : Type) : Type := State → Except String (α × State × List Ev)

instance : Monad SM where
  pure a := fun s => Except.ok (a, s, [])
  bind m f := fun s =>
    match m s with
    | Except.error e => Except.error e
    | Except.ok (a, s1, t1) =>
      match f a s1 with
      | Except.error e => Except.error e
      | Except.ok (b, s2, t2) => Except.ok (b, s2, t1 ++ t2)

/-- Read the current state. -/
def getS : SM State := fun s => Except.ok (s, s, [])

/-- Apply a pure state transformation. -/
def modifyS (f : State → State) : SM Unit := fun s => Except.ok ((), f s, [])

/-- Record an event. -/
def emit (e : Ev) : SM Unit := fun s => Except.ok ((), s, [e])

/-- Abort the run: a Rust panic (`assert!`, `panic!`, `unimplemented!`) or a
recoverable `bail!`. -/
def throwM {α : Type} (msg : String) : SM α := fun _ => Except.error msg

/-- Hash-set insert: a no-op when the element is already present. -/
def sinsert {γ : Type} [DecidableEq γ] (x : γ) (l : List γ) : List γ :=
  if x ∈ l then l else x :: l

/-- Hash-set remove: drops the element wherever it occurs. -/
def sremove {γ : Type} [DecidableEq γ] (x : γ) (l : List γ) : List γ :=
  l.filter (fun y => y ≠ x)

/-- Sequence an action over a list, as a Rust `for` loop does. -/
def forEachM {γ : Type} : List γ → (γ → SM Unit) → SM Unit
  | [], _ => pure ()
  | x :: xs, f => f x >>= fun _ => forEachM xs f

/-- Final state of a run (the unchanged input state if the run panics). -/
def execSM {α : Type} (m : SM α) (s : State) : State :=
  match m s with
  | Except.ok (_, s2, _) => s2
  | Except.error _ => s

/-- Event trace of a run (empty if the run panics). -/
def traceSM {α : Type} (m : SM α) (s : State) : List Ev :=
  match m s with
  | Except.ok (_, _, tr) => tr
  | Except.error _ => []

/-- Whether a run completes without panicking. -/
def okSM {α : Type} (m : SM α) (s : State) : Bool :=
  match m s with
  | Except.ok _ => true
  | Except.error _ => false

/-! State-update helpers, standing for the interior mutation of one entity
through its shared handle. -/

/-- Replace the entry of one data object. -/
def setObj (oid : DataObjectId) (f : DataObject → DataObject) (s : State) : State :=
  { s with graph :=
    { s.graph with objectOf := Function.update s.graph.objectOf oid (f (s.graph.objectOf oid)) } }

/-- Replace the entry of one task. -/
def setTask (tid : TaskId) (f : Task → Task) (s : State) : State :=
  { s with graph :=
    { s.graph with taskOf := Function.update s.graph.taskOf tid (f (s.graph.taskOf tid)) } }

/-- Replace the entry of one worker. -/
def setWorker (wid : WorkerId) (f : Worker → Worker) (s : State) : State :=
  { s with graph :=
    { s.graph with workerOf := Function.update s.graph.workerOf wid (f (s.graph.workerOf wid)) } }

/-- The statement pair `object.assigned.insert(w); w.assigned_objects.insert(o)`
(state.rs 335-336, also 405-406 and 443-444). -/
def assignPair (oid : DataObjectId) (wid : WorkerId) (s : State) : State :=
  setWorker wid (fun w => { w with assigned_objects := sinsert oid w.assigned_objects })
    (setObj oid (fun o => { o with assigned := sinsert wid o.assigned }) s)

/-- The statement pair `object.assigned.remove(w); w.assigned_objects.remove(o)`
(state.rs 361-362). -/
def unassignPair (oid : DataObjectId) (wid : WorkerId) (s : State) : State :=
  setWorker wid (fun w => { w with assigned_objects := sremove oid w.assigned_objects })
    (setObj oid (fun o => { o with assigned := sremove wid o.assigned }) s)

/-- The statement pair `oref.located.insert(worker); worker.located_objects.insert(oref)`
(state.rs 630-631). -/
def locatedPair (oid : DataObjectId) (wid : WorkerId) (s : State) : State :=
  setWorker wid (fun w => { w with located_objects := sinsert oid w.located_objects })
    (setObj oid (fun o => { o with located := sinsert wid o.located }) s)

/-- Modelled from the spec: `DataObjectRef::is_needed` is not among the
sources; per spec section 4.5, "Needed" means `client_keep` OR some
non-Finished consumer exists OR some consumer is scheduled on a worker that
does not yet have the object. -/
def is_needed (s : State) (oid : DataObjectId) : Bool :=
  let o := s.graph.objectOf oid
  o.client_keep ||
    o.consumers.any (fun c => (s.graph.taskOf c).state ≠ TaskState.Finished) ||
    o.consumers.any (fun c =>
      match (s.graph.taskOf c).scheduled with
      | some w => decide (w ∉ o.located)
      | none => false)

/-! The placement reconcilers of `server::state::State` (state.rs). -/

/-- Embeds `State::assign_object` (state.rs 305-339).  Asserts the object is
`Finished` and not yet assigned on the worker; picks the payload source (the
first located worker, or the server when the object carries inline data —
asserting that one of the two exists); spawns the `add_nodes` RPC; then
inserts the worker into `o.assigned` and the object into
`w.assigned_objects`. -/
def assign_object (oid : DataObjectId) (wid : WorkerId) : SM Unit := do
  let s ← getS
  let o := s.graph.objectOf oid
  if o.state ≠ DataObjectState.Finished then throwM "assign_object: object not Finished" else
  if wid ∈ o.assigned then throwM "assign_object: object already assigned on worker" else
  if o.located = [] ∧ o.data = none then throwM "assign_object: no placement and no data" else do
  emit (Ev.rpcAddNodes wid)
  modifyS (assignPair oid wid)

/-- Embeds `State::unassign_object` (state.rs 343-366).  Asserts the object is
assigned on the worker, spawns the `unassign_objects` RPC, then removes the
memberships on both sides. -/
def unassign_object (oid : DataObjectId) (wid : WorkerId) : SM Unit := do
  let s ← getS
  if wid ∉ (s.graph.objectOf oid).assigned then throwM "unassign_object: object not assigned on worker" else do
  emit (Ev.rpcUnassignObjects wid)
  modifyS (unassignPair oid wid)

/-- Embeds `Task::trigger_finish_hooks`: fires and drains the hook list.  The
hooks themselves are opaque; firing them is recorded as a trace event. -/
def trigger_task_finish_hooks (tid : TaskId) : SM Unit := do
  emit (Ev.taskFinishHooksTriggered tid)
  modifyS (setTask tid (fun t => { t with finish_hooks := [] }))

/-- Embeds `DataObject::trigger_finish_hooks`, as for tasks. -/
def trigger_object_finish_hooks (oid : DataObjectId) : SM Unit := do
  emit (Ev.objectFinishHooksTriggered oid)
  modifyS (setObj oid (fun o => { o with finish_hooks := [] }))

/-- Embeds `State::unassign_task` (state.rs 453-479), parameterized over the
`update_task_assignment` re-entry invoked at its end (state.rs 475), so that
the mutual recursion of the source becomes a single fuel recursion.  Unwraps
the assigned worker (panic when none), asserts the task is not scheduled on
that same worker, spawns the `stop_tasks` RPC, resets the task to
`Ready`/unassigned, removes it from the worker's `assigned_tasks`, then
re-runs `update_task_assignment`. -/
def unassign_task_with (uta : TaskId → SM Unit) (tid : TaskId) : SM Unit := do
  let s ← getS
  match (s.graph.taskOf tid).assigned with
  | none => throwM "unassign_task: unwrap on None assigned"
  | some wid => do
    if (s.graph.taskOf tid).scheduled = some wid then
      throwM "unassign_task: assert failed: task scheduled on its assigned worker" else do
    emit (Ev.rpcStopTasks wid)
    modifyS (setTask tid (fun t => { t with assigned := none, state := TaskState.Ready }))
    modifyS (setWorker wid (fun w => { w with assigned_tasks := sremove tid w.assigned_tasks }))
    uta tid

/-- Rule 1 of `update_task_assignment` (state.rs 500-503): a `NotAssigned`
task with empty `waiting_for` becomes `Ready` and joins the scheduler update
set. -/
def uta_rule1 (tid : TaskId) : SM Unit := do
  let s1 ← getS
  if (s1.graph.taskOf tid).state = TaskState.NotAssigned ∧
      (s1.graph.taskOf tid).waiting_for = [] then do
    modifyS (setTask tid (fun t => { t with state := TaskState.Ready }))
    modifyS (fun s => { s with updatedTasks := sinsert tid s.updatedTasks })
  else pure ()

/-- Rule 2 of `update_task_assignment` (state.rs 505-509): a `Ready`
scheduled task joins its worker's `scheduled_ready_tasks`. -/
def uta_rule2 (tid : TaskId) : SM Unit := do
  let s2 ← getS
  if (s2.graph.taskOf tid).state = TaskState.Ready then
    match (s2.graph.taskOf tid).scheduled with
    | some wid =>
      modifyS (setWorker wid (fun w =>
        { w with scheduled_ready_tasks := sinsert tid w.scheduled_ready_tasks }))
    | none => pure ()
  else pure ()

/-- The unassign step of rule 3 (state.rs 513-518): unassign an assigned
task and assert it came out `Ready`. -/
def uta_rule3_unassign (uta : TaskId → SM Unit) (tid : TaskId) : SM Unit := do
  let s3 ← getS
  match (s3.graph.taskOf tid).assigned with
  | some _ => do
    unassign_task_with uta tid
    let s4 ← getS
    if (s4.graph.taskOf tid).state ≠ TaskState.Ready then
      throwM "update_task_assignment: assert failed: not Ready after unassign" else pure ()
  | none => pure ()

/-- Rule 3 of `update_task_assignment` (state.rs 511-526): an
Assigned/Running task whose assignment does not match its schedule is
unassigned, then re-enqueued on the scheduled worker when Ready. -/
def uta_rule3 (uta : TaskId → SM Unit) (tid : TaskId) : SM Unit := do
  let s3 ← getS
  if ((s3.graph.taskOf tid).state = TaskState.Assigned ∨
      (s3.graph.taskOf tid).state = TaskState.Running) ∧
      (s3.graph.taskOf tid).assigned ≠ (s3.graph.taskOf tid).scheduled then do
    uta_rule3_unassign uta tid
    let s5 ← getS
    match (s5.graph.taskOf tid).scheduled with
    | some wid =>
      if (s5.graph.taskOf tid).state = TaskState.Ready then
        modifyS (setWorker wid (fun w =>
          { w with scheduled_ready_tasks := sinsert tid w.scheduled_ready_tasks }))
      else pure ()
    | none => pure ()
  else pure ()

/-- Rule 4 of `update_task_assignment` (state.rs 528-531): a `Finished` task
must be unassigned (assert) and is unscheduled. -/
def uta_rule4 (tid : TaskId) : SM Unit := do
  let s6 ← getS
  if (s6.graph.taskOf tid).state = TaskState.Finished then
    if (s6.graph.taskOf tid).assigned ≠ none then
      throwM "update_task_assignment: assert failed: Finished task still assigned"
    else modifyS (setTask tid (fun t => { t with scheduled := none }))
  else pure ()

/-- Embeds `State::update_task_assignment` (state.rs 497-534), the task
transition function: the four rules run in order, each re-reading the live
state as the source does through `tref.get()`.  The mutual recursion with
`unassign_task` is bounded by an explicit fuel (the source recursion has
depth at most two: after `unassign_task` the state is `Ready`, which
recurses no further); exhausted fuel aborts the run.  Entry is recorded as
an `updateTaskAssignmentCalled` trace event. -/
def update_task_assignment (fuel : Nat) (tid : TaskId) : SM Unit :=
  match fuel with
  | 0 => throwM "update_task_assignment: fuel exhausted"
  | fuel + 1 => do
    emit (Ev.updateTaskAssignmentCalled tid)
    let s0 ← getS
    if (s0.graph.taskOf tid).state = TaskState.Failed then
      throwM "update_task_assignment: assert failed: task is Failed" else do
    uta_rule1 tid
    uta_rule2 tid
    uta_rule3 (fun t => update_task_assignment fuel t) tid
    uta_rule4 tid

/-- The standalone `State::unassign_task` entry point, at a given fuel. -/
def unassign_task (fuel : Nat) (tid : TaskId) : SM Unit :=
  unassign_task_with (fun t => update_task_assignment fuel t) tid

/-- Default recursion fuel for `update_task_assignment`: the source recursion
has depth at most two, so any fuel of at least two is never exhausted. -/
def utaFuel : Nat := 4

/-- The worker-directed phase of `update_object_assignments`
(state.rs 552-565): match the assignment on the given worker (if any) with
the schedule there. -/
def uoa_worker_phase (oid : DataObjectId) (worker : Option WorkerId) : SM Unit :=
  match worker with
  | some wid => do
    let s1 ← getS
    if oid ∈ (s1.graph.workerOf wid).scheduled_objects then
      (if oid ∉ (s1.graph.workerOf wid).assigned_objects ∧
          (s1.graph.objectOf oid).state = DataObjectState.Finished then
         assign_object oid wid
       else pure ())
    else
      (if oid ∈ (s1.graph.workerOf wid).assigned_objects ∧
          (¬ is_needed s1 oid = true ∨ (s1.graph.objectOf oid).located.length > 2 ∨
            wid ∉ (s1.graph.objectOf oid).located) then
         unassign_object oid wid
       else pure ())
  | none => pure ()

/-- The lifecycle phase of `update_object_assignments` (state.rs 566-582):
remove an unscheduled unneeded object, or prune extra located replicas. -/
def uoa_lifecycle_phase (oid : DataObjectId) : SM Unit := do
  let s2 ← getS
  if (s2.graph.objectOf oid).scheduled = [] then
    (if ¬ is_needed s2 oid = true then do
       forEachM (s2.graph.objectOf oid).assigned (fun wa => unassign_object oid wa)
       modifyS (setObj oid (fun o => { o with state := DataObjectState.Removed }))
     else pure ())
  else
    (if (s2.graph.objectOf oid).located.length > (s2.graph.objectOf oid).scheduled.length then
       forEachM (s2.graph.objectOf oid).located (fun wa => do
         let s3 ← getS
         if wa ∉ (s3.graph.objectOf oid).scheduled ∧
             (s3.graph.objectOf oid).located.length ≥ 2 then
           unassign_object oid wa
         else pure ())
     else pure ())

/-- Embeds `State::update_object_assignments` (state.rs 547-586): reconcile a
Finished object's assignment with the schedule on the given worker, then
remove it when unscheduled and not needed, or prune extra located replicas.
NOP for Unfinished and Removed objects. -/
def update_object_assignments (oid : DataObjectId) (worker : Option WorkerId) : SM Unit := do
  let s ← getS
  match (s.graph.objectOf oid).state with
  | DataObjectState.Unfinished => pure ()
  | DataObjectState.Removed => pure ()
  | DataObjectState.Finished => do
    uoa_worker_phase oid worker
    uoa_lifecycle_phase oid

/-- Embeds the per-entry body of the task-update loop of
`State::updates_from_worker` (state.rs 595-622).  A triple stands for the
`(TaskRef, TaskState, Additional)` update tuple.  In the `Failed` arm the
source evaluates `fail_session(&tref.get().session, unimplemented!())`,
whose second argument panics before `fail_session` can run. -/
def process_task_update (tid : TaskId) (st : TaskState) (additional : Nat) : SM Unit := do
  modifyS (fun s => { s with updatedTasks := sinsert tid s.updatedTasks })
  match st with
  | TaskState.Finished => do
    modifyS (setTask tid (fun t => { t with state := st, additional := additional }))
    update_task_assignment utaFuel tid
    trigger_task_finish_hooks tid
  | TaskState.Running => do
    let s ← getS
    if (s.graph.taskOf tid).state ≠ TaskState.Assigned then
      throwM "updates_from_worker: assert failed: Running report on task not Assigned" else
    modifyS (setTask tid (fun t => { t with state := st, additional := additional }))
  | TaskState.Failed => do
    modifyS (setTask tid (fun t => { t with state := st, additional := additional }))
    throwM "updates_from_worker: fail_session cause is unimplemented"
  | _ => throwM "updates_from_worker: invalid worker task state update"

/-- Embeds the per-entry body of the object-update loop of
`State::updates_from_worker` (state.rs 624-662).  A 4-tuple stands for the
`(DataObjectRef, DataObjectState, usize, Additional)` update tuple. -/
def process_object_update (wid : WorkerId) (oid : DataObjectId) (st : DataObjectState)
    (size : Nat) (additional : Nat) : SM Unit := do
  modifyS (fun s =>
    { s with updatedObjects :=
        Function.update s.updatedObjects oid (sinsert wid (s.updatedObjects oid)) })
  match st with
  | DataObjectState.Finished => do
    modifyS (locatedPair oid wid)
    let s ← getS
    match (s.graph.objectOf oid).state with
    | DataObjectState.Unfinished => do
      -- First completion (state.rs 633-646).
      modifyS (setObj oid (fun o =>
        { o with state := st, size := some size, additional := additional }))
      trigger_object_finish_hooks oid
      let s2 ← getS
      forEachM (s2.graph.objectOf oid).consumers (fun cid => do
        let s3 ← getS
        if (s3.graph.taskOf cid).state ≠ TaskState.NotAssigned then
          throwM "updates_from_worker: assert failed: consumer not NotAssigned" else do
        modifyS (setTask cid (fun t => { t with waiting_for := sremove oid t.waiting_for }))
        update_task_assignment utaFuel cid)
      update_object_assignments oid (some wid)
    | DataObjectState.Finished =>
      -- Cloning to some other worker done (state.rs 647-650).
      update_object_assignments oid (some wid)
    | DataObjectState.Removed =>
      throwM "updates_from_worker: panic: worker set object state on Removed object"
  | _ => throwM "updates_from_worker: panic: worker set object state to non-Finished"

/-- Embeds `State::updates_from_worker` (state.rs 589-663): processes the
task updates in order, then the object updates in order. -/
def updates_from_worker (wid : WorkerId)
    (obj_updates : List (DataObjectId × DataObjectState × Nat × Nat))
    (task_updates : List (TaskId × TaskState × Nat)) : SM Unit := do
  forEachM task_updates (fun u => process_task_update u.1 u.2.1 u.2.2)
  forEachM obj_updates (fun u => process_object_update wid u.1 u.2.1 u.2.2.1 u.2.2.2)

/-- Embeds `State::assign_task` (state.rs 371-449).  Asserts the task is
scheduled and unassigned; records the assignment; checks every input not
assigned on the worker has a payload source (first located worker, or the
server when the object has inline data — asserting that one exists); assigns
all outputs to the worker; spawns the `add_nodes` RPC carrying the objects
and the task; inserts the task into `w.assigned_tasks`, drops it from
`w.scheduled_ready_tasks` and marks it `Assigned`; finally re-inserts the
output assignments (idempotent, as in the source's duplicated loop). -/
def assign_task (tid : TaskId) : SM Unit := do
  let s ← getS
  let t := s.graph.taskOf tid
  match t.scheduled with
  | none => throwM "assign_task: assert failed: task not scheduled"
  | some wid => do
    if t.assigned ≠ none then throwM "assign_task: assert failed: task already assigned" else do
    modifyS (setTask tid (fun t => { t with assigned := some wid }))
    -- Input placement collection (state.rs 387-401); only the placement
    -- assert is semantically visible.
    forEachM t.inputs (fun iid => do
      let si ← getS
      if wid ∉ (si.graph.objectOf iid).assigned ∧ (si.graph.objectOf iid).located = [] ∧
          (si.graph.objectOf iid).data = none then
        throwM "assign_task: assert failed: input with no placement and no data"
      else pure ())
    -- First output loop (state.rs 403-407).
    forEachM t.outputs (fun oid => modifyS (assignPair oid wid))
    emit (Ev.rpcAddNodes wid)
    modifyS (setWorker wid (fun w =>
      { w with assigned_tasks := sinsert tid w.assigned_tasks,
               scheduled_ready_tasks := sremove tid w.scheduled_ready_tasks }))
    modifyS (setTask tid (fun t => { t with assigned := some wid, state := TaskState.Assigned }))
    -- Second output loop (state.rs 442-445).
    forEachM t.outputs (fun oid => modifyS (assignPair oid wid))

/-- Embeds the inner `while` loop of `State::distribute_tasks`
(state.rs 671-677) for one worker, with fuel bounding the iteration count
(each iteration pops one element of `scheduled_ready_tasks`, which nothing in
the loop refills, so a fuel of the queue's length at entry is exact). -/
def distribute_worker_loop (fuel : Nat) (wid : WorkerId) : SM Unit :=
  match fuel with
  | 0 => pure ()
  | fuel + 1 => do
    let s ← getS
    match (s.graph.workerOf wid).scheduled_ready_tasks with
    | [] => pure ()
    | tid :: _ =>
      if (s.graph.workerOf wid).assigned_tasks.length < 128 then do
        modifyS (setWorker wid (fun w =>
          { w with scheduled_ready_tasks := sremove tid w.scheduled_ready_tasks }))
        let s2 ← getS
        if (s2.graph.taskOf tid).scheduled ≠ some wid then
          throwM "distribute_tasks: assert failed: popped task not scheduled here" else do
        assign_task tid
        distribute_worker_loop fuel wid
      else pure ()

/-- Embeds `State::distribute_tasks` (state.rs 667-679): for every worker,
while it is not overbooked (fewer than 128 assigned tasks) and has scheduled
ready tasks, pop one and `assign_task` it. -/
def distribute_tasks : SM Unit := do
  let s ← getS
  forEachM s.graph.workerIds (fun wid => do
    let sw ← getS
    distribute_worker_loop (sw.graph.workerOf wid).scheduled_ready_tasks.length wid)

/-! Submission verification and worker registration. -/

/-- Modelled from the spec: the per-entity `DataObjectRef::check_consistency`
is not among the sources.  Per spec section 3, a data object must satisfy:
Finished implies size set and (inline data present or located non-empty);
Removed implies assigned and located empty and not needed; the producer's
outputs contain the object; every consumer's inputs contain the object; data
and producer are mutually exclusive. -/
def object_check_consistency (oid : DataObjectId) : SM Unit := do
  let s ← getS
  let o := s.graph.objectOf oid
  let okFinished : Bool :=
    o.state ≠ DataObjectState.Finished ∨ (o.size.isSome ∧ (o.data.isSome ∨ o.located ≠ []))
  let okRemoved : Bool :=
    o.state ≠ DataObjectState.Removed ∨ (o.assigned = [] ∧ o.located = [] ∧ ¬ is_needed s oid)
  let okProducer : Bool :=
    match o.producer with
    | some p => oid ∈ (s.graph.taskOf p).outputs
    | none => true
  let okConsumers : Bool := o.consumers.all (fun c => oid ∈ (s.graph.taskOf c).inputs)
  let okExclusive : Bool := ¬ (o.data.isSome ∧ o.producer.isSome)
  if okFinished ∧ okRemoved ∧ okProducer ∧ okConsumers ∧ okExclusive then pure ()
  else throwM "object consistency check failed"

/-- Modelled from the spec: the per-entity `TaskRef::check_consistency` is
not among the sources.  Per spec section 3, a task must satisfy: Ready iff
waiting_for empty and assigned none; Assigned/Running implies assigned some;
Finished implies assigned none and all outputs Finished; waiting_for is a
subset of the not-yet-Finished inputs; every output's producer is the task;
the task is a consumer of each input. -/
def task_check_consistency (tid : TaskId) : SM Unit := do
  let s ← getS
  let t := s.graph.taskOf tid
  let okReady : Bool :=
    (t.state = TaskState.Ready) = (t.waiting_for = [] ∧ t.assigned = none)
  let okAssigned : Bool :=
    (t.state ≠ TaskState.Assigned ∧ t.state ≠ TaskState.Running) ∨ t.assigned.isSome
  let okFinished : Bool :=
    t.state ≠ TaskState.Finished ∨
      (t.assigned = none ∧
        t.outputs.all (fun o => (s.graph.objectOf o).state = DataObjectState.Finished))
  let okWaiting : Bool := t.waiting_for.all (fun o =>
    o ∈ t.inputs ∧ (s.graph.objectOf o).state ≠ DataObjectState.Finished)
  let okOutputs : Bool := t.outputs.all (fun o => (s.graph.objectOf o).producer = some tid)
  let okInputs : Bool := t.inputs.all (fun i => tid ∈ (s.graph.objectOf i).consumers)
  if okReady ∧ okAssigned ∧ okFinished ∧ okWaiting ∧ okOutputs ∧ okInputs then pure ()
  else throwM "task consistency check failed"

/-- Embeds `State::verify_submit` (state.rs 276-301).  The source carries the
comment `TODO: Check acyclicity` and performs no acyclicity check: it only
checks that every submitted object has exactly one of a producer and inline
data, then runs the per-entity consistency checks over the submitted objects
and tasks (the final whole-state `check_consistency_opt` is debug-gated and
a no-op in release mode). -/
def verify_submit (task_ids : List TaskId) (object_ids : List DataObjectId) : SM Unit := do
  forEachM object_ids (fun oid => do
    let s ← getS
    let o := s.graph.objectOf oid
    if o.producer.isSome ∧ o.data.isSome then
      throwM "verify_submit: object submitted with both producer task and data"
    else if o.producer = none ∧ o.data = none then
      throwM "verify_submit: object submitted with neither producer nor data"
    else pure ())
  forEachM object_ids (fun oid => object_check_consistency oid)
  forEachM task_ids (fun tid => task_check_consistency tid)

/-- A self-contained cycle test on a submitted subgraph, used to exhibit that
`verify_submit` accepts cyclic submissions: a one-task cycle exists when some
object is both an input and an output of the same task. -/
def has_self_cycle (s : State) (task_ids : List TaskId) : Bool :=
  task_ids.any (fun tid =>
    (s.graph.taskOf tid).inputs.any (fun o => o ∈ (s.graph.taskOf tid).outputs))

/-- A fresh worker entry, `WorkerRef::new` (fields empty, no error). -/
def newWorker (resources : Nat) : Worker :=
  { resources := resources, error := none, assigned_tasks := [],
    scheduled_ready_tasks := [], assigned_objects := [], located_objects := [],
    scheduled_objects := [] }

/-- Embeds `State::add_worker` (state.rs 48-59): bails when the graph already
contains a worker with this address, otherwise registers a fresh worker. -/
def add_worker (address : WorkerId) (resources : Nat) : SM WorkerId := do
  let s ← getS
  if address ∈ s.graph.workerIds then
    throwM "State already contains worker"
  else do
    modifyS (fun s =>
      { s with graph :=
        { s.graph with
            workerIds := sinsert address s.graph.workerIds,
            workerOf := Function.update s.graph.workerOf address (newWorker resources) } })
    pure address

/-- Embeds `State::remove_worker` (state.rs 63-87): the entire body is
`unimplemented!()` (the intended cleanup is only present as a commented-out
block), so every call panics. -/
def remove_worker (worker : WorkerId) : SM Unit :=
  throwM "remove_worker: not implemented"

/-! The bootstrap RPC surface (`server::rpc::bootstrap`, bootstrap.rs). -/

/-- Modelled from the spec: the integer worker protocol version constant
(`WORKER_PROTOCOL_VERSION`) lives outside the given sources; its value is
irrelevant, only equality with it matters. -/
def WORKER_PROTOCOL_VERSION : Nat := 1

/-- Modelled from the spec: the integer client protocol version constant
(`CLIENT_PROTOCOL_VERSION`) lives outside the given sources. -/
def CLIENT_PROTOCOL_VERSION : Nat := 1

/-- Per-connection bootstrap object (`ServerBootstrapImpl`): the server state
handle is passed explicitly here, so only the registered flag and the remote
address of the connection remain. -/
structure ServerBootstrap where
  registered : Bool
  address : SocketAddr
deriving DecidableEq

/-- Errors surfaced to the RPC peer by the bootstrap calls. -/
inductive RpcError where
  | alreadyRegistered
  | protocolMismatch
  | stateError (msg : String)
deriving DecidableEq

/-- Bootstrap trace events (the `worker_resources` probe and markers for the
mutation order inside `register_as_worker`). -/
inductive BEv where
  | setRegistered
  | rpcWorkerResources
  | addWorkerCalled
deriving DecidableEq

/-- Result of a bootstrap call: the connection object and server state after
the call, the bootstrap-level trace, and the returned value or error. -/
structure RegResult (α : Type) where
  bootstrap : ServerBootstrap
  state : State
  trace : List BEv
  result : Except RpcError α

/-- Embeds `register_as_worker` (bootstrap.rs 74-133).  Rejects a second
registration and a protocol mismatch; then sets the registered flag; computes
the worker id — the announced address, except that an unspecified announced
IP is replaced by the connection's IP (keeping the announced port); probes
`worker_resources` over the control capability; and on the probe's response
calls `add_worker`, whose failure is surfaced to the peer (the registered
flag stays set and the graph is unchanged). -/
def register_as_worker (b : ServerBootstrap) (version : Nat) (address : SocketAddr)
    (resources : Nat) (s : State) : RegResult WorkerId :=
  if b.registered then
    { bootstrap := b, state := s, trace := [], result := Except.error RpcError.alreadyRegistered }
  else if version ≠ WORKER_PROTOCOL_VERSION then
    { bootstrap := b, state := s, trace := [], result := Except.error RpcError.protocolMismatch }
  else
    let b1 := { b with registered := true }
    let worker_id : WorkerId :=
      if address.ip = 0 then { ip := b.address.ip, port := address.port } else address
    match add_worker worker_id resources s with
    | Except.error e =>
      { bootstrap := b1, state := s,
        trace := [BEv.setRegistered, BEv.rpcWorkerResources, BEv.addWorkerCalled],
        result := Except.error (RpcError.stateError e) }
    | Except.ok (_, s1, _) =>
      { bootstrap := b1, state := s1,
        trace := [BEv.setRegistered, BEv.rpcWorkerResources, BEv.addWorkerCalled],
        result := Except.ok worker_id }

/-- Embeds `register_as_client` (bootstrap.rs 43-72).  Rejects a second
registration and a protocol mismatch, then sets the registered flag; the
construction of the `ClientService` capability is outside the given sources
and carries no graph mutation here. -/
def register_as_client (b : ServerBootstrap) (version : Nat) (s : State) : RegResult Unit :=
  if b.registered then
    { bootstrap := b, state := s, trace := [], result := Except.error RpcError.alreadyRegistered }
  else if version ≠ CLIENT_PROTOCOL_VERSION then
    { bootstrap := b, state := s, trace := [], result := Except.error RpcError.protocolMismatch }
  else
    { bootstrap := { b with registered := true }, state := s,
      trace := [BEv.setRegistered], result := Except.ok () }

/-! Concrete entities and states used to evaluate the code on specific
inputs. -/

/-- A blank data object (fields empty/none, state Unfinished). -/
def emptyObject : DataObject :=
  { state := DataObjectState.Unfinished, client_keep := false, producer := none,
    consumers := [], data := none, size := none, additional := 0, located := [],
    assigned := [], scheduled := [], finish_hooks := [] }

/-- A blank task (fields empty/none, state NotAssigned). -/
def emptyTask : Task :=
  { state := TaskState.NotAssigned, session := 0, inputs := [], outputs := [],
    waiting_for := [], scheduled := none, assigned := none, additional := 0,
    finish_hooks := [] }

/-- A graph with no registered entities (lookups default to blanks). -/
def emptyGraph : Graph :=
  { workerIds := [], workerOf := fun _ => newWorker 0, taskIds := [],
    taskOf := fun _ => emptyTask, objectIds := [], objectOf := fun _ => emptyObject }

/-- An empty server state. -/
def emptyState : State :=
  { graph := emptyGraph, updatedTasks := [], updatedObjects := fun _ => [] }

/-- A worker address used in the concrete runs. -/
def wA : WorkerId := { ip := 5, port := 7210 }

/-- Submission with a one-task cycle: object 0 is both the single input and
the single output of task 0 (so its producer is task 0 and it carries no
inline data), exactly the shape of spec scenario 2. -/
def stCycle : State :=
  { emptyState with graph :=
    { emptyGraph with
        taskIds := [0],
        taskOf := Function.update emptyGraph.taskOf 0
          { emptyTask with inputs := [0], outputs := [0], waiting_for := [0] },
        objectIds := [0],
        objectOf := Function.update emptyGraph.objectOf 0
          { emptyObject with producer := some 0, consumers := [0] } } }

/-- State with task 0 in state `Ready` (never assigned) and task 1 in state
`Assigned` on worker `wA`, both scheduled on `wA`. -/
def stUpd : State :=
  { emptyState with graph :=
    { emptyGraph with
        workerIds := [wA],
        workerOf := Function.update emptyGraph.workerOf wA
          { newWorker 8 with assigned_tasks := [1] },
        taskIds := [0, 1],
        taskOf := fun tid =>
          if tid = 0 then { emptyTask with state := TaskState.Ready, scheduled := some wA }
          else if tid = 1 then
            { emptyTask with state := TaskState.Assigned, scheduled := some wA,
                             assigned := some wA }
          else emptyTask } }

/-- State with a single Finished object 0 whose payload is inline data, not
yet assigned anywhere, and one registered worker `wA`. -/
def stFin : State :=
  { emptyState with graph :=
    { emptyGraph with
        workerIds := [wA],
        objectIds := [0],
        objectOf := Function.update emptyGraph.objectOf 0
          { emptyObject with state := DataObjectState.Finished, size := some 5,
                             data := some [1, 2, 3, 4, 5] } } }

/-- State where worker `wA` is both scheduled to hold and already assigned
the Finished object 0, which is located only there and not needed (no
`client_keep`, no consumers). -/
def stC4x : State :=
  { emptyState with graph :=
    { emptyGraph with
        workerIds := [wA],
        workerOf := Function.update emptyGraph.workerOf wA
          { newWorker 8 with scheduled_objects := [0], assigned_objects := [0],
                             located_objects := [0] },
        objectIds := [0],
        objectOf := Function.update emptyGraph.objectOf 0
          { emptyObject with state := DataObjectState.Finished, size := some 1,
                             located := [wA], assigned := [wA], scheduled := [wA] } } }

/-- State where worker `wA` is scheduled to hold the Finished server-sourced
object 0 but does not have it assigned yet. -/
def stC4w : State :=
  { emptyState with graph :=
    { emptyGraph with
        workerIds := [wA],
        workerOf := Function.update emptyGraph.workerOf wA
          { newWorker 8 with scheduled_objects := [0] },
        objectIds := [0],
        objectOf := Function.update emptyGraph.objectOf 0
          { emptyObject with state := DataObjectState.Finished, size := some 1,
                             data := some [1], scheduled := [wA] } } }

/-- An unregistered bootstrap connection arriving from IP 9. -/
def bC10 : ServerBootstrap := { registered := false, address := { ip := 9, port := 1 } }

/-- State that already contains a worker with id 3.4 (so a second
registration under that id is a duplicate). -/
def stC10 : State :=
  { emptyState with graph :=
    { emptyGraph with workerIds := [{ ip := 3, port := 4 }] } }

/-- The assignment mirror invariant of spec section 8: a worker is in an
object's `assigned` set exactly when the object is in the worker's
`assigned_objects` set. -/
def MirrorInv (s : State) : Prop :=
  ∀ oid wid, wid ∈ (s.graph.objectOf oid).assigned ↔
    oid ∈ (s.graph.workerOf wid).assigned_objects

/-- A predicate on states is preserved by every successful run of a
computation. -/
def Preserves {α : Type} (P : State → Prop) (m : SM α) : Prop :=
  ∀ s a s2 tr, P s → m s = Except.ok (a, s2, tr) → P s2

/-- A projection of the state is left unchanged by every successful run. -/
def Fixes {α γ : Type} (f : State → γ) (m : SM α) : Prop :=
  ∀ s a s2 tr, m s = Except.ok (a, s2, tr) → f s2 = f s


/-! Run lemmas and predicate-transformer combinators. -/

/-- Unfolding a bound computation at a state. -/
theorem run_bind {α β : Type} (m : SM α) (f : α → SM β) (s : State) :
    (m >>= f) s = match m s with
      | Except.error e => Except.error e
      | Except.ok (a, s1, t1) =>
        match f a s1 with
        | Except.error e => Except.error e
        | Except.ok (b, s2, t2) => Except.ok (b, s2, t1 ++ t2) := rfl

/-- Unfolding `pure` at a state. -/
theorem run_pure {α : Type} (a : α) (s : State) :
    (pure a : SM α) s = Except.ok (a, s, []) := rfl

/-- Unfolding `getS` at a state. -/
theorem run_getS (s : State) : getS s = Except.ok (s, s, []) := rfl

/-- Unfolding `modifyS` at a state. -/
theorem run_modifyS (f : State → State) (s : State) :
    modifyS f s = Except.ok ((), f s, []) := rfl

/-- Unfolding `emit` at a state. -/
theorem run_emit (e : Ev) (s : State) : emit e s = Except.ok ((), s, [e]) := rfl

/-- Unfolding `throwM` at a state. -/
theorem run_throwM {α : Type} (msg : String) (s : State) :
    (throwM msg : SM α) s = Except.error msg := rfl

/-- A conditional computation applied to a state. -/
theorem run_ite {α : Type} (c : Prop) [Decidable c] (m1 m2 : SM α) (s : State) :
    (if c then m1 else m2) s = if c then m1 s else m2 s := by
  by_cases h : c <;> simp [h]

/-- Membership in a hash-set insert. -/
theorem mem_sinsert {γ : Type} [DecidableEq γ] (a x : γ) (l : List γ) :
    a ∈ sinsert x l ↔ a = x ∨ a ∈ l := by
  by_cases hx : x ∈ l
  · simp only [sinsert, if_pos hx]
    constructor
    · exact Or.inr
    · rintro (rfl | h)
      · exact hx
      · exact h
  · simp [sinsert, if_neg hx]

/-- Membership in a hash-set remove. -/
theorem mem_sremove {γ : Type} [DecidableEq γ] (a x : γ) (l : List γ) :
    a ∈ sremove x l ↔ a ∈ l ∧ a ≠ x := by
  simp [sremove]

/-- Removing a freshly inserted element restores the set. -/
theorem sremove_sinsert {γ : Type} [DecidableEq γ] (x : γ) (l : List γ) (h : x ∉ l) :
    sremove x (sinsert x l) = l := by
  have hk : ∀ y ∈ l, decide (y ≠ x) = true := by
    intro y hy
    simp only [decide_eq_true_eq]
    rintro rfl
    exact h hy
  have hstep : sremove x (x :: l) = sremove x l := by
    simp [sremove]
  rw [sinsert, if_neg h, hstep, sremove, List.filter_eq_self.mpr hk]

/-- Decomposition of a successful bound run. -/
theorem bind_ok {α β : Type} {m : SM α} {f : α → SM β} {s : State} {b : β} {s2 : State}
    {tr : List Ev} (h : (m >>= f) s = Except.ok (b, s2, tr)) :
    ∃ a s1 t1 t2, m s = Except.ok (a, s1, t1) ∧ f a s1 = Except.ok (b, s2, t2) ∧
      tr = t1 ++ t2 := by
  rw [run_bind] at h
  rcases hm : m s with e | r
  · rw [hm] at h
    simp at h
  · obtain ⟨a, s1, t1⟩ := r
    rw [hm] at h
    rcases hf : f a s1 with e | r2
    · simp [hf] at h
    · obtain ⟨b2, s3, t2⟩ := r2
      simp [hf] at h
      obtain ⟨hb, hs, ht⟩ := h
      subst hb; subst hs
      exact ⟨a, s1, t1, t2, rfl, hf, ht.symm⟩

theorem preserves_bind {α β : Type} {P : State → Prop} {m : SM α} {f : α → SM β}
    (h1 : Preserves P m) (h2 : ∀ a, Preserves P (f a)) : Preserves P (m >>= f) := by
  intro s b s2 tr hP hrun
  obtain ⟨a, s1, t1, t2, hm, hf, -⟩ := bind_ok hrun
  exact h2 a s1 b s2 t2 (h1 s a s1 t1 hP hm) hf

theorem preserves_pure {α : Type} {P : State → Prop} (a : α) : Preserves P (pure a) := by
  intro s b s2 tr hP hrun
  rw [run_pure] at hrun
  simp at hrun
  obtain ⟨-, hs, -⟩ := hrun
  subst hs
  exact hP

theorem preserves_getS {P : State → Prop} : Preserves P getS := by
  intro s b s2 tr hP hrun
  rw [run_getS] at hrun
  simp at hrun
  obtain ⟨-, hs, -⟩ := hrun
  subst hs
  exact hP

theorem preserves_emit {P : State → Prop} (e : Ev) : Preserves P (emit e) := by
  intro s b s2 tr hP hrun
  rw [run_emit] at hrun
  simp at hrun
  obtain ⟨hs, -⟩ := hrun
  subst hs
  exact hP

theorem preserves_throwM {α : Type} {P : State → Prop} (msg : String) :
    Preserves P (throwM msg : SM α) := by
  intro s b s2 tr hP hrun
  rw [run_throwM] at hrun
  exact absurd hrun (by simp)

theorem preserves_modifyS {P : State → Prop} {f : State → State}
    (h : ∀ s, P s → P (f s)) : Preserves P (modifyS f) := by
  intro s b s2 tr hP hrun
  rw [run_modifyS] at hrun
  simp at hrun
  obtain ⟨hs, -⟩ := hrun
  subst hs
  exact h s hP

theorem preserves_ite {α : Type} {P : State → Prop} {c : Prop} {inst : Decidable c}
    {m1 m2 : SM α} (h1 : Preserves P m1) (h2 : Preserves P m2) :
    Preserves P (@ite _ c inst m1 m2) := by
  by_cases h : c
  · simpa [h] using h1
  · simpa [h] using h2

theorem preserves_forEachM {γ : Type} {P : State → Prop} {f : γ → SM Unit}
    (h : ∀ x, Preserves P (f x)) : ∀ l : List γ, Preserves P (forEachM l f) := by
  intro l
  induction l with
  | nil => exact preserves_pure ()
  | cons x xs ih => exact preserves_bind (h x) (fun _ => ih)

/-- A successful run preserves `P` on the final state of `execSM`. -/
theorem preserves_execSM {α : Type} {P : State → Prop} {m : SM α} {s : State}
    (hm : Preserves P m) (h : P s) : P (execSM m s) := by
  unfold execSM
  rcases hrun : m s with e | r
  · exact h
  · obtain ⟨a, s2, tr⟩ := r
    exact hm s a s2 tr h hrun

theorem fixes_bind {α β γ : Type} {f : State → γ} {m : SM α} {g : α → SM β}
    (h1 : Fixes f m) (h2 : ∀ a, Fixes f (g a)) : Fixes f (m >>= g) := by
  intro s b s2 tr hrun
  obtain ⟨a, s1, t1, t2, hm, hf, -⟩ := bind_ok hrun
  rw [h2 a s1 b s2 t2 hf, h1 s a s1 t1 hm]

theorem fixes_pure {α γ : Type} {f : State → γ} (a : α) : Fixes f (pure a) := by
  intro s b s2 tr hrun
  rw [run_pure] at hrun
  simp at hrun
  obtain ⟨-, hs, -⟩ := hrun
  subst hs
  rfl

theorem fixes_getS {γ : Type} {f : State → γ} : Fixes f getS := by
  intro s b s2 tr hrun
  rw [run_getS] at hrun
  simp at hrun
  obtain ⟨-, hs, -⟩ := hrun
  subst hs
  rfl

theorem fixes_emit {γ : Type} {f : State → γ} (e : Ev) : Fixes f (emit e) := by
  intro s b s2 tr hrun
  rw [run_emit] at hrun
  simp at hrun
  obtain ⟨hs, -⟩ := hrun
  subst hs
  rfl

theorem fixes_throwM {α γ : Type} {f : State → γ} (msg : String) :
    Fixes f (throwM msg : SM α) := by
  intro s b s2 tr hrun
  rw [run_throwM] at hrun
  exact absurd hrun (by simp)

theorem fixes_modifyS {γ : Type} {f : State → γ} {g : State → State}
    (h : ∀ s, f (g s) = f s) : Fixes f (modifyS g) := by
  intro s b s2 tr hrun
  rw [run_modifyS] at hrun
  simp at hrun
  obtain ⟨hs, -⟩ := hrun
  subst hs
  exact h s

theorem fixes_ite {α γ : Type} {f : State → γ} {c : Prop} {inst : Decidable c}
    {m1 m2 : SM α} (h1 : Fixes f m1) (h2 : Fixes f m2) :
    Fixes f (@ite _ c inst m1 m2) := by
  by_cases h : c
  · simpa [h] using h1
  · simpa [h] using h2

theorem fixes_forEachM {γ δ : Type} {f : State → γ} {g : δ → SM Unit}
    (h : ∀ x, Fixes f (g x)) : ∀ l : List δ, Fixes f (forEachM l g) := by
  intro l
  induction l with
  | nil => exact fixes_pure ()
  | cons x xs ih => exact fixes_bind (h x) (fun _ => ih)

/-! Projection lemmas for the entity-update helpers. -/

@[simp] theorem setObj_workerOf (oid : DataObjectId) (f : DataObject → DataObject) (s : State) :
    (setObj oid f s).graph.workerOf = s.graph.workerOf := rfl

@[simp] theorem setObj_taskOf (oid : DataObjectId) (f : DataObject → DataObject) (s : State) :
    (setObj oid f s).graph.taskOf = s.graph.taskOf := rfl

@[simp] theorem setObj_objectOf (oid : DataObjectId) (f : DataObject → DataObject) (s : State) :
    (setObj oid f s).graph.objectOf
      = Function.update s.graph.objectOf oid (f (s.graph.objectOf oid)) := rfl

@[simp] theorem setWorker_objectOf (wid : WorkerId) (f : Worker → Worker) (s : State) :
    (setWorker wid f s).graph.objectOf = s.graph.objectOf := rfl

@[simp] theorem setWorker_taskOf (wid : WorkerId) (f : Worker → Worker) (s : State) :
    (setWorker wid f s).graph.taskOf = s.graph.taskOf := rfl

@[simp] theorem setWorker_workerOf (wid : WorkerId) (f : Worker → Worker) (s : State) :
    (setWorker wid f s).graph.workerOf
      = Function.update s.graph.workerOf wid (f (s.graph.workerOf wid)) := rfl

@[simp] theorem setTask_objectOf (tid : TaskId) (f : Task → Task) (s : State) :
    (setTask tid f s).graph.objectOf = s.graph.objectOf := rfl

@[simp] theorem setTask_workerOf (tid : TaskId) (f : Task → Task) (s : State) :
    (setTask tid f s).graph.workerOf = s.graph.workerOf := rfl

@[simp] theorem setTask_taskOf (tid : TaskId) (f : Task → Task) (s : State) :
    (setTask tid f s).graph.taskOf
      = Function.update s.graph.taskOf tid (f (s.graph.taskOf tid)) := rfl

/-! Characterizations of the successful runs of the two object reconcilers. -/

/-- A successful `assign_object` run ends in `assignPair` and emits exactly
the `add_nodes` RPC. -/
theorem assign_object_ok {oid : DataObjectId} {wid : WorkerId} {s : State} {a : Unit}
    {s2 : State} {tr : List Ev} (h : assign_object oid wid s = Except.ok (a, s2, tr)) :
    s2 = assignPair oid wid s ∧ tr = [Ev.rpcAddNodes wid] := by
  unfold assign_object at h
  rw [run_bind, run_getS] at h
  simp only [run_ite] at h
  split at h
  next e heq => simp at h
  next b s3 t2 heq =>
    split at heq
    · rw [run_throwM] at heq; simp at heq
    · split at heq
      · rw [run_throwM] at heq; simp at heq
      · split at heq
        · rw [run_throwM] at heq; simp at heq
        · simp [run_bind, run_emit, run_modifyS] at heq
          simp at h
          simp_all

/-- A successful `unassign_object` run ends in `unassignPair` and emits
exactly the `unassign_objects` RPC. -/
theorem unassign_object_ok {oid : DataObjectId} {wid : WorkerId} {s : State} {a : Unit}
    {s2 : State} {tr : List Ev} (h : unassign_object oid wid s = Except.ok (a, s2, tr)) :
    s2 = unassignPair oid wid s ∧ tr = [Ev.rpcUnassignObjects wid] := by
  unfold unassign_object at h
  rw [run_bind, run_getS] at h
  simp only [run_ite] at h
  split at h
  next e heq => simp at h
  next b s3 t2 heq =>
    split at heq
    · rw [run_throwM] at heq; simp at heq
    · simp [run_bind, run_emit, run_modifyS] at heq
      simp at h
      simp_all

/-- The guards of `assign_object` pass exactly under its documented
preconditions, and the run then takes the `assignPair` step. -/
theorem assign_object_run (oid : DataObjectId) (wid : WorkerId) (s : State)
    (hfin : (s.graph.objectOf oid).state = DataObjectState.Finished)
    (hnot : wid ∉ (s.graph.objectOf oid).assigned)
    (hsrc : ¬ ((s.graph.objectOf oid).located = [] ∧ (s.graph.objectOf oid).data = none)) :
    assign_object oid wid s = Except.ok ((), assignPair oid wid s, [Ev.rpcAddNodes wid]) := by
  unfold assign_object
  rw [run_bind, run_getS]
  simp only [run_ite]
  rw [if_neg (by simp [hfin]), if_neg hnot, if_neg hsrc]
  simp [run_bind, run_emit, run_modifyS]

/-- The guard of `unassign_object` passes exactly under its documented
precondition, and the run then takes the `unassignPair` step. -/
theorem unassign_object_run (oid : DataObjectId) (wid : WorkerId) (s : State)
    (hmem : wid ∈ (s.graph.objectOf oid).assigned) :
    unassign_object oid wid s
      = Except.ok ((), unassignPair oid wid s, [Ev.rpcUnassignObjects wid]) := by
  unfold unassign_object
  rw [run_bind, run_getS]
  simp only [run_ite]
  rw [if_neg (by simp [hmem])]
  simp [run_bind, run_emit, run_modifyS]

/-! Preservation of the assignment mirror invariant. -/

/-- The mirror invariant only depends on the `assigned` and
`assigned_objects` projections. -/
theorem mirror_of_projections {s s2 : State}
    (ho : ∀ oid, (s2.graph.objectOf oid).assigned = (s.graph.objectOf oid).assigned)
    (hw : ∀ wid, (s2.graph.workerOf wid).assigned_objects
      = (s.graph.workerOf wid).assigned_objects)
    (h : MirrorInv s) : MirrorInv s2 := by
  intro o w
  rw [ho, hw]
  exact h o w

/-- Updating a task entry never touches the mirror invariant. -/
theorem mirror_setTask (tid : TaskId) (f : Task → Task) {s : State} (h : MirrorInv s) :
    MirrorInv (setTask tid f s) :=
  mirror_of_projections (fun _ => rfl) (fun _ => rfl) h

/-- Updating an object entry without changing its `assigned` set preserves
the mirror invariant. -/
theorem mirror_setObj_keep {oid : DataObjectId} {f : DataObject → DataObject}
    (hf : ∀ o, (f o).assigned = o.assigned) {s : State} (h : MirrorInv s) :
    MirrorInv (setObj oid f s) := by
  refine @mirror_of_projections s (setObj oid f s) (fun o => ?_) (fun _ => rfl) h
  simp only [setObj_objectOf, Function.update_apply]
  split
  · next heq => rw [hf, heq]
  · rfl

/-- Updating a worker entry without changing its `assigned_objects` set
preserves the mirror invariant. -/
theorem mirror_setWorker_keep {wid : WorkerId} {f : Worker → Worker}
    (hf : ∀ w, (f w).assigned_objects = w.assigned_objects) {s : State} (h : MirrorInv s) :
    MirrorInv (setWorker wid f s) := by
  refine @mirror_of_projections s (setWorker wid f s) (fun _ => rfl) (fun w => ?_) h
  simp only [setWorker_workerOf, Function.update_apply]
  split
  · next heq => rw [hf, heq]
  · rfl

/-- `assignPair` inserts the membership on both sides at once, preserving
the mirror invariant. -/
theorem mirror_assignPair (oid : DataObjectId) (wid : WorkerId) {s : State}
    (h : MirrorInv s) : MirrorInv (assignPair oid wid s) := by
  intro o w
  simp only [assignPair, setWorker_workerOf, setWorker_objectOf, setObj_objectOf,
    setObj_workerOf, Function.update_apply]
  by_cases ho : o = oid <;> by_cases hw : w = wid
  · simp [ho, hw, mem_sinsert]
  · simp [ho, if_neg hw, mem_sinsert, hw]
    exact h oid w
  · simp [hw, if_neg ho, mem_sinsert, ho]
    exact h o wid
  · simp [if_neg ho, if_neg hw]
    exact h o w

/-- `unassignPair` removes the membership on both sides at once, preserving
the mirror invariant. -/
theorem mirror_unassignPair (oid : DataObjectId) (wid : WorkerId) {s : State}
    (h : MirrorInv s) : MirrorInv (unassignPair oid wid s) := by
  intro o w
  simp only [unassignPair, setWorker_workerOf, setWorker_objectOf, setObj_objectOf,
    setObj_workerOf, Function.update_apply]
  by_cases ho : o = oid <;> by_cases hw : w = wid
  · simp [ho, hw, mem_sremove]
  · simp [ho, if_neg hw, mem_sremove, hw]
    exact h oid w
  · simp [hw, if_neg ho, mem_sremove, ho]
    exact h o wid
  · simp [if_neg ho, if_neg hw]
    exact h o w

/-- `locatedPair` touches only the located sets, preserving the mirror
invariant. -/
theorem mirror_locatedPair (oid : DataObjectId) (wid : WorkerId) {s : State}
    (h : MirrorInv s) : MirrorInv (locatedPair oid wid s) := by
  have h1 : MirrorInv (setObj oid (fun o => { o with located := sinsert wid o.located }) s) :=
    @mirror_setObj_keep oid (fun o => { o with located := sinsert wid o.located })
      (fun _ => rfl) s h
  exact @mirror_setWorker_keep wid
    (fun w => { w with located_objects := sinsert oid w.located_objects }) (fun _ => rfl) _ h1

/-- Updating only a task's bookkeeping on a worker (its `assigned_tasks`,
`scheduled_ready_tasks`, `located_objects` or `scheduled_objects`) preserves
the mirror invariant; stated for each shape the mutators use. -/
theorem mirror_sched_insert (wid : WorkerId) (tid : TaskId) {s : State} (h : MirrorInv s) :
    MirrorInv (setWorker wid
      (fun w => { w with scheduled_ready_tasks := sinsert tid w.scheduled_ready_tasks }) s) :=
  @mirror_setWorker_keep wid
    (fun w => { w with scheduled_ready_tasks := sinsert tid w.scheduled_ready_tasks })
    (fun _ => rfl) s h

/-- Removing a task from a worker's `assigned_tasks` preserves the mirror
invariant. -/
theorem mirror_tasks_remove (wid : WorkerId) (tid : TaskId) {s : State} (h : MirrorInv s) :
    MirrorInv (setWorker wid
      (fun w => { w with assigned_tasks := sremove tid w.assigned_tasks }) s) :=
  @mirror_setWorker_keep wid
    (fun w => { w with assigned_tasks := sremove tid w.assigned_tasks })
    (fun _ => rfl) s h

/-- The `assigned_tasks`/`scheduled_ready_tasks` update of `assign_task`
preserves the mirror invariant. -/
theorem mirror_tasks_insert (wid : WorkerId) (tid : TaskId) {s : State} (h : MirrorInv s) :
    MirrorInv (setWorker wid
      (fun w => { w with assigned_tasks := sinsert tid w.assigned_tasks,
                         scheduled_ready_tasks := sremove tid w.scheduled_ready_tasks }) s) :=
  @mirror_setWorker_keep wid
    (fun w => { w with assigned_tasks := sinsert tid w.assigned_tasks,
                       scheduled_ready_tasks := sremove tid w.scheduled_ready_tasks })
    (fun _ => rfl) s h

/-- Draining an object's finish hooks preserves the mirror invariant. -/
theorem mirror_obj_hooks (oid : DataObjectId) {s : State} (h : MirrorInv s) :
    MirrorInv (setObj oid (fun o => { o with finish_hooks := [] }) s) :=
  @mirror_setObj_keep oid (fun o => { o with finish_hooks := [] }) (fun _ => rfl) s h

/-- Recording an object's completion metadata preserves the mirror
invariant. -/
theorem mirror_obj_meta (oid : DataObjectId) (st : DataObjectState) (size : Nat)
    (additional : Nat) {s : State} (h : MirrorInv s) :
    MirrorInv (setObj oid
      (fun o => { o with state := st, size := some size, additional := additional }) s) :=
  @mirror_setObj_keep oid
    (fun o => { o with state := st, size := some size, additional := additional })
    (fun _ => rfl) s h

/-- Marking an object `Removed` preserves the mirror invariant. -/
theorem mirror_obj_removed (oid : DataObjectId) {s : State} (h : MirrorInv s) :
    MirrorInv (setObj oid (fun o => { o with state := DataObjectState.Removed }) s) :=
  @mirror_setObj_keep oid (fun o => { o with state := DataObjectState.Removed })
    (fun _ => rfl) s h

/-- `assign_object` preserves the mirror invariant. -/
theorem preserves_mirror_assign_object (oid : DataObjectId) (wid : WorkerId) :
    Preserves MirrorInv (assign_object oid wid) := by
  intro s a s2 tr hP hrun
  obtain ⟨hs2, -⟩ := assign_object_ok hrun
  subst hs2
  exact mirror_assignPair oid wid hP

/-- `unassign_object` preserves the mirror invariant. -/
theorem preserves_mirror_unassign_object (oid : DataObjectId) (wid : WorkerId) :
    Preserves MirrorInv (unassign_object oid wid) := by
  intro s a s2 tr hP hrun
  obtain ⟨hs2, -⟩ := unassign_object_ok hrun
  subst hs2
  exact mirror_unassignPair oid wid hP

/-- Triggering task finish hooks preserves the mirror invariant. -/
theorem preserves_mirror_trigger_task (tid : TaskId) :
    Preserves MirrorInv (trigger_task_finish_hooks tid) := by
  unfold trigger_task_finish_hooks
  exact preserves_bind (preserves_emit _)
    (fun _ => preserves_modifyS (fun s h => mirror_setTask _ _ h))

/-- Triggering object finish hooks preserves the mirror invariant. -/
theorem preserves_mirror_trigger_object (oid : DataObjectId) :
    Preserves MirrorInv (trigger_object_finish_hooks oid) := by
  unfold trigger_object_finish_hooks
  exact preserves_bind (preserves_emit _)
    (fun _ => preserves_modifyS (fun s h => mirror_obj_hooks oid h))

/-- `unassign_task_with` preserves the mirror invariant whenever its
re-entry continuation does. -/
theorem preserves_mirror_unassign_task_with {uta : TaskId → SM Unit}
    (huta : ∀ t, Preserves MirrorInv (uta t)) (tid : TaskId) :
    Preserves MirrorInv (unassign_task_with uta tid) := by
  unfold unassign_task_with
  refine preserves_bind preserves_getS (fun s => ?_)
  rcases (s.graph.taskOf tid).assigned with _ | wid
  · exact preserves_throwM _
  · refine preserves_ite (preserves_throwM _) ?_
    refine preserves_bind (preserves_emit _) (fun _ => ?_)
    refine preserves_bind (preserves_modifyS (fun s h => mirror_setTask _ _ h)) (fun _ => ?_)
    refine preserves_bind (preserves_modifyS (fun s h => mirror_tasks_remove wid tid h))
      (fun _ => ?_)
    exact huta tid

/-- Rule 1 preserves the mirror invariant. -/
theorem preserves_mirror_uta_rule1 (tid : TaskId) : Preserves MirrorInv (uta_rule1 tid) := by
  unfold uta_rule1
  refine preserves_bind preserves_getS (fun s1 => ?_)
  exact preserves_ite
    (preserves_bind (preserves_modifyS (fun s h => mirror_setTask _ _ h))
      (fun _ => preserves_modifyS (fun s h => h)))
    (preserves_pure _)

/-- Rule 2 preserves the mirror invariant. -/
theorem preserves_mirror_uta_rule2 (tid : TaskId) : Preserves MirrorInv (uta_rule2 tid) := by
  unfold uta_rule2
  refine preserves_bind preserves_getS (fun s2 => ?_)
  refine preserves_ite ?_ (preserves_pure _)
  rcases (s2.graph.taskOf tid).scheduled with _ | wid2
  · exact preserves_pure _
  · exact preserves_modifyS (fun s h => mirror_sched_insert wid2 tid h)

/-- The unassign step of rule 3 preserves the mirror invariant whenever the
re-entry continuation does. -/
theorem preserves_mirror_uta_rule3_unassign {uta : TaskId → SM Unit}
    (huta : ∀ t, Preserves MirrorInv (uta t)) (tid : TaskId) :
    Preserves MirrorInv (uta_rule3_unassign uta tid) := by
  unfold uta_rule3_unassign
  refine preserves_bind preserves_getS (fun s3 => ?_)
  rcases (s3.graph.taskOf tid).assigned with _ | wid3
  · exact preserves_pure _
  · refine preserves_bind (preserves_mirror_unassign_task_with huta tid) (fun _ => ?_)
    refine preserves_bind preserves_getS (fun s4 => ?_)
    exact preserves_ite (preserves_throwM _) (preserves_pure _)

/-- Rule 3 preserves the mirror invariant whenever the re-entry continuation
does. -/
theorem preserves_mirror_uta_rule3 {uta : TaskId → SM Unit}
    (huta : ∀ t, Preserves MirrorInv (uta t)) (tid : TaskId) :
    Preserves MirrorInv (uta_rule3 uta tid) := by
  unfold uta_rule3
  refine preserves_bind preserves_getS (fun s3 => ?_)
  refine preserves_ite ?_ (preserves_pure _)
  refine preserves_bind (preserves_mirror_uta_rule3_unassign huta tid) (fun _ => ?_)
  refine preserves_bind preserves_getS (fun s5 => ?_)
  rcases (s5.graph.taskOf tid).scheduled with _ | wid5
  · exact preserves_pure _
  · exact preserves_ite
      (preserves_modifyS (fun s h => mirror_sched_insert wid5 tid h)) (preserves_pure _)

/-- Rule 4 preserves the mirror invariant. -/
theorem preserves_mirror_uta_rule4 (tid : TaskId) : Preserves MirrorInv (uta_rule4 tid) := by
  unfold uta_rule4
  refine preserves_bind preserves_getS (fun s6 => ?_)
  exact preserves_ite
    (preserves_ite (preserves_throwM _) (preserves_modifyS (fun s h => mirror_setTask _ _ h)))
    (preserves_pure _)

/-- `update_task_assignment` preserves the mirror invariant: none of its
steps touches an `assigned`/`assigned_objects` pair. -/
theorem preserves_mirror_uta :
    ∀ fuel tid, Preserves MirrorInv (update_task_assignment fuel tid) := by
  intro fuel
  induction fuel with
  | zero => intro tid; exact preserves_throwM _
  | succ f ih =>
    intro tid
    simp only [update_task_assignment]
    refine preserves_bind (preserves_emit _) (fun _ => ?_)
    refine preserves_bind preserves_getS (fun s0 => ?_)
    refine preserves_ite (preserves_throwM _) ?_
    refine preserves_bind (preserves_mirror_uta_rule1 tid) (fun _ => ?_)
    refine preserves_bind (preserves_mirror_uta_rule2 tid) (fun _ => ?_)
    refine preserves_bind (preserves_mirror_uta_rule3 (fun t => ih t) tid) (fun _ => ?_)
    exact preserves_mirror_uta_rule4 tid

/-- The worker-directed phase preserves the mirror invariant. -/
theorem preserves_mirror_uoa_worker_phase (oid : DataObjectId) (worker : Option WorkerId) :
    Preserves MirrorInv (uoa_worker_phase oid worker) := by
  unfold uoa_worker_phase
  rcases worker with _ | wid
  · exact preserves_pure _
  · refine preserves_bind preserves_getS (fun s1 => ?_)
    refine preserves_ite ?_ ?_
    · exact preserves_ite (preserves_mirror_assign_object oid wid) (preserves_pure _)
    · exact preserves_ite (preserves_mirror_unassign_object oid wid) (preserves_pure _)

/-- The lifecycle phase preserves the mirror invariant. -/
theorem preserves_mirror_uoa_lifecycle_phase (oid : DataObjectId) :
    Preserves MirrorInv (uoa_lifecycle_phase oid) := by
  unfold uoa_lifecycle_phase
  refine preserves_bind preserves_getS (fun s2 => ?_)
  refine preserves_ite ?_ ?_
  · refine preserves_ite ?_ (preserves_pure _)
    refine preserves_bind
      (preserves_forEachM (fun wa => preserves_mirror_unassign_object oid wa) _)
      (fun _ => ?_)
    exact preserves_modifyS (fun s h => mirror_obj_removed oid h)
  · refine preserves_ite ?_ (preserves_pure _)
    refine preserves_forEachM (fun wa => ?_) _
    refine preserves_bind preserves_getS (fun s3 => ?_)
    exact preserves_ite (preserves_mirror_unassign_object oid wa) (preserves_pure _)

/-- `update_object_assignments` preserves the mirror invariant. -/
theorem preserves_mirror_update_object_assignments (oid : DataObjectId)
    (worker : Option WorkerId) :
    Preserves MirrorInv (update_object_assignments oid worker) := by
  unfold update_object_assignments
  refine preserves_bind preserves_getS (fun s => ?_)
  rcases (s.graph.objectOf oid).state with _ | _ | _
  · exact preserves_pure _
  · exact preserves_bind (preserves_mirror_uoa_worker_phase oid worker)
      (fun _ => preserves_mirror_uoa_lifecycle_phase oid)
  · exact preserves_pure _

/-- The per-entry task-update body preserves the mirror invariant. -/
theorem preserves_mirror_process_task_update (tid : TaskId) (st : TaskState)
    (additional : Nat) : Preserves MirrorInv (process_task_update tid st additional) := by
  unfold process_task_update
  refine preserves_bind (preserves_modifyS (fun s h => h)) (fun _ => ?_)
  rcases st with _ | _ | _ | _ | _ | _
  · exact preserves_throwM _
  · exact preserves_throwM _
  · exact preserves_throwM _
  · refine preserves_bind preserves_getS (fun s => ?_)
    exact preserves_ite (preserves_throwM _)
      (preserves_modifyS (fun s h => mirror_setTask _ _ h))
  · refine preserves_bind (preserves_modifyS (fun s h => mirror_setTask _ _ h)) (fun _ => ?_)
    refine preserves_bind (preserves_mirror_uta utaFuel tid) (fun _ => ?_)
    exact preserves_mirror_trigger_task tid
  · exact preserves_bind (preserves_modifyS (fun s h => mirror_setTask _ _ h))
      (fun _ => preserves_throwM _)

/-- The per-entry object-update body preserves the mirror invariant. -/
theorem preserves_mirror_process_object_update (wid : WorkerId) (oid : DataObjectId)
    (st : DataObjectState) (size : Nat) (additional : Nat) :
    Preserves MirrorInv (process_object_update wid oid st size additional) := by
  unfold process_object_update
  refine preserves_bind (preserves_modifyS (fun s h => h)) (fun _ => ?_)
  rcases st with _ | _ | _
  · exact preserves_throwM _
  · refine preserves_bind (preserves_modifyS (fun s h => mirror_locatedPair oid wid h))
      (fun _ => ?_)
    refine preserves_bind preserves_getS (fun s => ?_)
    rcases (s.graph.objectOf oid).state with _ | _ | _
    · refine preserves_bind
        (preserves_modifyS (fun s h => mirror_obj_meta oid DataObjectState.Finished size additional h))
        (fun _ => ?_)
      refine preserves_bind (preserves_mirror_trigger_object oid) (fun _ => ?_)
      refine preserves_bind preserves_getS (fun s2 => ?_)
      refine preserves_bind ?_ (fun _ => ?_)
      · refine preserves_forEachM (fun cid => ?_) _
        refine preserves_bind preserves_getS (fun s3 => ?_)
        refine preserves_ite (preserves_throwM _) ?_
        refine preserves_bind (preserves_modifyS (fun s h => mirror_setTask _ _ h)) (fun _ => ?_)
        exact preserves_mirror_uta utaFuel cid
      · exact preserves_mirror_update_object_assignments oid (some wid)
    · exact preserves_mirror_update_object_assignments oid (some wid)
    · exact preserves_throwM _
  · exact preserves_throwM _

/-- `updates_from_worker` preserves the mirror invariant. -/
theorem preserves_mirror_updates_from_worker (wid : WorkerId)
    (obj_updates : List (DataObjectId × DataObjectState × Nat × Nat))
    (task_updates : List (TaskId × TaskState × Nat)) :
    Preserves MirrorInv (updates_from_worker wid obj_updates task_updates) := by
  unfold updates_from_worker
  refine preserves_bind
    (preserves_forEachM (fun (u : TaskId × TaskState × Nat) => preserves_mirror_process_task_update u.1 u.2.1 u.2.2) _)
    (fun _ => ?_)
  exact preserves_forEachM
    (fun (u : DataObjectId × DataObjectState × Nat × Nat) =>
      preserves_mirror_process_object_update wid u.1 u.2.1 u.2.2.1 u.2.2.2) _

/-- `assign_task` preserves the mirror invariant: every output assignment is
inserted on both sides through `assignPair`. -/
theorem preserves_mirror_assign_task (tid : TaskId) :
    Preserves MirrorInv (assign_task tid) := by
  unfold assign_task
  refine preserves_bind preserves_getS (fun s => ?_)
  dsimp only
  rcases (s.graph.taskOf tid).scheduled with _ | wid
  · exact preserves_throwM _
  · refine preserves_ite (preserves_throwM _) ?_
    refine preserves_bind (preserves_modifyS (fun s h => mirror_setTask _ _ h)) (fun _ => ?_)
    refine preserves_bind ?_ (fun _ => ?_)
    · refine preserves_forEachM (fun iid => ?_) _
      refine preserves_bind preserves_getS (fun si => ?_)
      exact preserves_ite (preserves_throwM _) (preserves_pure _)
    refine preserves_bind
      (preserves_forEachM (fun oid => preserves_modifyS (fun s h => mirror_assignPair oid wid h)) _)
      (fun _ => ?_)
    refine preserves_bind (preserves_emit _) (fun _ => ?_)
    refine preserves_bind (preserves_modifyS (fun s h => mirror_tasks_insert wid tid h))
      (fun _ => ?_)
    refine preserves_bind (preserves_modifyS (fun s h => mirror_setTask _ _ h)) (fun _ => ?_)
    exact preserves_forEachM
      (fun oid => preserves_modifyS (fun s h => mirror_assignPair oid wid h)) _

/-! Theorems settling the claims. -/

attribute [ext] Graph State

/-- C5: for a Finished object not assigned on a worker (in a graph
satisfying the assignment mirror invariant, with the object's payload source
available as `assign_object` asserts), running `assign_object` and then
`unassign_object` on the same (object, worker) pair restores the entire
state — the two runs only insert and then remove the same two memberships —
modulo the two emitted RPC side effects. -/
theorem assign_unassign_roundtrip (s : State) (oid : DataObjectId) (wid : WorkerId)
    (hfin : (s.graph.objectOf oid).state = DataObjectState.Finished)
    (hnot : wid ∉ (s.graph.objectOf oid).assigned)
    (hsrc : ¬ ((s.graph.objectOf oid).located = [] ∧ (s.graph.objectOf oid).data = none))
    (hmir : MirrorInv s) :
    execSM (unassign_object oid wid) (execSM (assign_object oid wid) s) = s := by
  have hoa : oid ∉ (s.graph.workerOf wid).assigned_objects := fun hc => hnot ((hmir oid wid).mpr hc)
  have hex1 : execSM (assign_object oid wid) s = assignPair oid wid s := by
    unfold execSM
    rw [assign_object_run oid wid s hfin hnot hsrc]
  have hmem : wid ∈ ((assignPair oid wid s).graph.objectOf oid).assigned := by
    simp [assignPair, mem_sinsert]
  have hex2 : execSM (unassign_object oid wid) (assignPair oid wid s)
      = unassignPair oid wid (assignPair oid wid s) := by
    unfold execSM
    rw [unassign_object_run oid wid (assignPair oid wid s) hmem]
  rw [hex1, hex2]
  have ho := sremove_sinsert wid (s.graph.objectOf oid).assigned hnot
  have hw := sremove_sinsert oid (s.graph.workerOf wid).assigned_objects hoa
  have hobj : (unassignPair oid wid (assignPair oid wid s)).graph.objectOf
      = s.graph.objectOf := by
    funext x
    by_cases hx : x = oid
    · subst hx
      simp [unassignPair, assignPair, Function.update_same, ho]
    · simp [unassignPair, assignPair, Function.update_noteq hx]
  have hwkr : (unassignPair oid wid (assignPair oid wid s)).graph.workerOf
      = s.graph.workerOf := by
    funext x
    by_cases hx : x = wid
    · subst hx
      simp [unassignPair, assignPair, Function.update_same, hw]
    · simp [unassignPair, assignPair, Function.update_noteq hx]
  refine State.ext ?_ rfl rfl
  exact Graph.ext rfl hwkr rfl rfl rfl hobj

/-- Witness for C5 at a concrete input: the Finished server-sourced object 0
of `stFin` assigned to and unassigned from worker `wA`. -/
theorem assign_unassign_roundtrip_witness :
    execSM (unassign_object 0 wA) (execSM (assign_object 0 wA) stFin) = stFin := by
  refine assign_unassign_roundtrip stFin 0 wA rfl (by decide) (by decide) ?_
  intro o w
  constructor
  · intro hmem
    exact absurd hmem (by
      simp [stFin, emptyState, emptyGraph, emptyObject, Function.update_apply]
      split <;> simp)
  · intro hmem
    exact absurd hmem (by
      simp [stFin, emptyState, emptyGraph, newWorker, Function.update_apply])

/-- C1: the spec requires `verify_submit` to return a Validation error
("cycle detected") on a submission whose task/object subgraph contains a
cycle, leaving the graph unchanged.  The source instead carries the comment
`TODO: Check acyclicity` (state.rs 277) and performs no acyclicity check, so
the cyclic submission of `stCycle` — task 0 consuming and producing object
0 — passes every implemented check and `verify_submit` returns Ok. -/
theorem verify_submit_accepts_cyclic_submission :
    has_self_cycle stCycle [0] = true ∧
      okSM (verify_submit [0] [0]) stCycle = true ∧
      execSM (verify_submit [0] [0]) stCycle = stCycle := by
  exact ⟨rfl, rfl, rfl⟩

/-- C2: the spec allows only the worker-reported task transitions
Assigned→Running, Assigned/Running→Finished and any→Failed, every other
report being a protocol violation.  The source's `Finished` arm
(state.rs 600-605) never checks the previous state: a `Finished` report on a
task in state `Ready` — which the claim says must be rejected — is accepted
and recorded (first two conjuncts), while a `Finished` report on a task in
state `Assigned` — which the claim says must be accepted — panics on
`assert!(tref.get().assigned.is_none())` inside `update_task_assignment`
(state.rs 529, third conjunct). -/
theorem updates_from_worker_finished_transitions :
    (okSM (updates_from_worker wA [] [(0, TaskState.Finished, 7)]) stUpd = true ∧
      ((execSM (updates_from_worker wA [] [(0, TaskState.Finished, 7)]) stUpd).graph.taskOf 0).state
        = TaskState.Finished) ∧
    okSM (updates_from_worker wA [] [(1, TaskState.Finished, 7)]) stUpd = false := by
  exact ⟨⟨rfl, rfl⟩, rfl⟩

/-- C3: the spec says a Finished report first triggers the task's finish
hooks and then invokes `update_task_assignment`.  The source does the
opposite (state.rs 603-604): on an accepted Finished report the trace shows
`update_task_assignment` invoked strictly before the finish hooks fire; and
on a task in state Assigned or Running — the claim's scope — the
`update_task_assignment` call panics first, so the hooks never fire at
all. -/
theorem updates_from_worker_finished_order :
    traceSM (updates_from_worker wA [] [(0, TaskState.Finished, 7)]) stUpd
      = [Ev.updateTaskAssignmentCalled 0, Ev.taskFinishHooksTriggered 0] ∧
    updates_from_worker wA [] [(1, TaskState.Finished, 7)] stUpd
      = Except.error "update_task_assignment: assert failed: Finished task still assigned" := by
  exact ⟨rfl, rfl⟩

/-- C6: after every public graph mutator — `assign_object`,
`unassign_object`, `assign_task`, `updates_from_worker`,
`update_object_assignments` — a worker is in an object's `assigned` set
exactly when the object is in the worker's `assigned_objects` set: each
mutator preserves the mirror invariant (a panicking run leaves the state as
it was). -/
theorem public_mutators_preserve_mirror (s : State) (h : MirrorInv s)
    (oid : DataObjectId) (wid : WorkerId) (tid : TaskId)
    (obj_updates : List (DataObjectId × DataObjectState × Nat × Nat))
    (task_updates : List (TaskId × TaskState × Nat)) (worker : Option WorkerId) :
    MirrorInv (execSM (assign_object oid wid) s) ∧
    MirrorInv (execSM (unassign_object oid wid) s) ∧
    MirrorInv (execSM (assign_task tid) s) ∧
    MirrorInv (execSM (updates_from_worker wid obj_updates task_updates) s) ∧
    MirrorInv (execSM (update_object_assignments oid worker) s) :=
  ⟨preserves_execSM (preserves_mirror_assign_object oid wid) h,
   preserves_execSM (preserves_mirror_unassign_object oid wid) h,
   preserves_execSM (preserves_mirror_assign_task tid) h,
   preserves_execSM (preserves_mirror_updates_from_worker wid obj_updates task_updates) h,
   preserves_execSM (preserves_mirror_update_object_assignments oid worker) h⟩

/-- Witness for C6 at a concrete input: the mutators run on `stFin` (whose
assignment sets are all empty, so the mirror invariant holds). -/
theorem public_mutators_preserve_mirror_witness :
    MirrorInv (execSM (assign_object 0 wA) stFin) ∧
    MirrorInv (execSM (unassign_object 0 wA) stFin) ∧
    MirrorInv (execSM (assign_task 0) stFin) ∧
    MirrorInv (execSM (updates_from_worker wA [] [(0, TaskState.Finished, 7)]) stFin) ∧
    MirrorInv (execSM (update_object_assignments 0 (some wA)) stFin) := by
  refine public_mutators_preserve_mirror stFin ?_ 0 wA 0 [] [(0, TaskState.Finished, 7)] (some wA)
  intro o w
  constructor
  · intro hmem
    exact absurd hmem (by
      simp [stFin, emptyState, emptyGraph, emptyObject, Function.update_apply]
      split <;> simp)
  · intro hmem
    exact absurd hmem (by
      simp [stFin, emptyState, emptyGraph, newWorker, Function.update_apply])

/-- In the scheduled branch of the worker-directed phase, a successful run
with the object unassigned on the worker emits exactly the `add_nodes`
RPC of `assign_object`. -/
theorem uoa_worker_phase_assign_mem {oid : DataObjectId} {wid : WorkerId} {s : State}
    {a : Unit} {s2 : State} {tr : List Ev}
    (hrun : uoa_worker_phase oid (some wid) s = Except.ok (a, s2, tr))
    (hsched : oid ∈ (s.graph.workerOf wid).scheduled_objects)
    (hnass : oid ∉ (s.graph.workerOf wid).assigned_objects)
    (hfin : (s.graph.objectOf oid).state = DataObjectState.Finished) :
    tr = [Ev.rpcAddNodes wid] := by
  unfold uoa_worker_phase at hrun
  obtain ⟨a1, s1, t1, t2, hget, hrest, htr⟩ := bind_ok hrun
  rw [run_getS] at hget
  simp at hget
  obtain ⟨ha1, hs1, ht1⟩ := hget
  subst ha1; subst hs1; subst ht1
  rw [run_ite, if_pos hsched, run_ite, if_pos ⟨hnass, hfin⟩] at hrest
  obtain ⟨-, htr2⟩ := assign_object_ok hrest
  rw [htr, htr2]
  rfl

/-- In the unscheduled branch of the worker-directed phase, a successful run
with the object assigned on the worker and the unassign condition holding
emits exactly the `unassign_objects` RPC of `unassign_object`. -/
theorem uoa_worker_phase_unassign_mem {oid : DataObjectId} {wid : WorkerId} {s : State}
    {a : Unit} {s2 : State} {tr : List Ev}
    (hrun : uoa_worker_phase oid (some wid) s = Except.ok (a, s2, tr))
    (hsched : oid ∉ (s.graph.workerOf wid).scheduled_objects)
    (hass : oid ∈ (s.graph.workerOf wid).assigned_objects)
    (hcond : ¬ is_needed s oid = true ∨ (s.graph.objectOf oid).located.length > 2 ∨
      wid ∉ (s.graph.objectOf oid).located) :
    tr = [Ev.rpcUnassignObjects wid] := by
  unfold uoa_worker_phase at hrun
  obtain ⟨a1, s1, t1, t2, hget, hrest, htr⟩ := bind_ok hrun
  rw [run_getS] at hget
  simp at hget
  obtain ⟨ha1, hs1, ht1⟩ := hget
  subst ha1; subst hs1; subst ht1
  rw [run_ite, if_neg hsched, run_ite, if_pos ⟨hass, hcond⟩] at hrest
  obtain ⟨-, htr2⟩ := unassign_object_ok hrest
  rw [htr, htr2]
  rfl

/-- A successful `update_object_assignments` run on a Finished object starts
with a successful worker-directed phase whose trace is a prefix of the run's
trace. -/
theorem uoa_decompose {oid : DataObjectId} {wid : WorkerId} {s : State} {a : Unit}
    {s2 : State} {tr : List Ev}
    (hfin : (s.graph.objectOf oid).state = DataObjectState.Finished)
    (hrun : update_object_assignments oid (some wid) s = Except.ok (a, s2, tr)) :
    ∃ b sW tW tL, uoa_worker_phase oid (some wid) s = Except.ok (b, sW, tW) ∧
      tr = tW ++ tL := by
  unfold update_object_assignments at hrun
  obtain ⟨a1, s1, t1, trest, hget, hrest, htr⟩ := bind_ok hrun
  rw [run_getS] at hget
  simp at hget
  obtain ⟨ha1, hs1, ht1⟩ := hget
  subst ha1; subst hs1; subst ht1
  rw [hfin] at hrest
  obtain ⟨b, sW, tW, tL, hw, hl, htr2⟩ := bind_ok hrest
  refine ⟨b, sW, tW, tL, hw, ?_⟩
  rw [htr, htr2]
  rfl

/-- C4 (amended): for a Finished object o and worker w passed to
`update_object_assignments(o, Some(w))`, if w is scheduled to hold o but
does not yet have o assigned then `assign_object(o, w)` is invoked (its
`add_nodes` RPC appears in the trace); otherwise — that is, when w is NOT
scheduled to hold o — if w has o assigned and (o is not needed, or
`|o.located| > 2`, or w is not in `o.located`), then `unassign_object(o, w)`
is invoked (its `unassign_objects` RPC appears in the trace).  In the
remaining case, w scheduled and already assigned, the code does nothing on
w (see the counterexample below). -/
theorem uoa_worker_directed_amended (s : State) (oid : DataObjectId) (wid : WorkerId)
    (a : Unit) (s2 : State) (tr : List Ev)
    (hfin : (s.graph.objectOf oid).state = DataObjectState.Finished)
    (hrun : update_object_assignments oid (some wid) s = Except.ok (a, s2, tr)) :
    (oid ∈ (s.graph.workerOf wid).scheduled_objects →
      oid ∉ (s.graph.workerOf wid).assigned_objects →
      Ev.rpcAddNodes wid ∈ tr) ∧
    (oid ∉ (s.graph.workerOf wid).scheduled_objects →
      oid ∈ (s.graph.workerOf wid).assigned_objects →
      (¬ is_needed s oid = true ∨ (s.graph.objectOf oid).located.length > 2 ∨
        wid ∉ (s.graph.objectOf oid).located) →
      Ev.rpcUnassignObjects wid ∈ tr) := by
  obtain ⟨b, sW, tW, tL, hw, htr⟩ := uoa_decompose hfin hrun
  constructor
  · intro hsched hnass
    rw [htr, uoa_worker_phase_assign_mem hw hsched hnass hfin]
    simp
  · intro hsched hass hcond
    rw [htr, uoa_worker_phase_unassign_mem hw hsched hass hcond]
    simp

/-- Witness for the amended C4 at a concrete input: on `stC4w`, worker `wA`
is scheduled for object 0 and does not hold it, and the run's trace contains
the `add_nodes` RPC of the `assign_object` invocation. -/
theorem uoa_worker_directed_amended_witness :
    Ev.rpcAddNodes wA ∈ traceSM (update_object_assignments 0 (some wA)) stC4w := by
  have hrun : update_object_assignments 0 (some wA) stC4w
      = Except.ok ((), execSM (update_object_assignments 0 (some wA)) stC4w,
          traceSM (update_object_assignments 0 (some wA)) stC4w) := rfl
  exact (uoa_worker_directed_amended stC4w 0 wA ()
    (execSM (update_object_assignments 0 (some wA)) stC4w)
    (traceSM (update_object_assignments 0 (some wA)) stC4w) rfl hrun).1
    (by decide) (by decide)

/-- C4 counterexample: on `stC4x`, worker `wA` has object 0 assigned and the
object is not needed — the claim's "otherwise" branch condition holds — yet
the run invokes nothing: it returns with the state unchanged and an empty
trace (no `unassign_objects` RPC), because the worker is also scheduled to
hold the object, which sends the code down the scheduled branch. -/
theorem uoa_counterexample_scheduled_assigned :
    ((stC4x.graph.objectOf 0).state = DataObjectState.Finished ∧
      wA ∈ (stC4x.graph.objectOf 0).assigned ∧
      0 ∈ (stC4x.graph.workerOf wA).assigned_objects ∧
      is_needed stC4x 0 = false) ∧
    update_object_assignments 0 (some wA) stC4x = Except.ok ((), stC4x, []) :=
  ⟨⟨rfl, by decide, by decide, rfl⟩, rfl⟩

/-- The length of a hash-set insert grows by at most one. -/
theorem length_sinsert_le {γ : Type} [DecidableEq γ] (x : γ) (l : List γ) :
    (sinsert x l).length ≤ l.length + 1 := by
  unfold sinsert
  split
  · exact Nat.le_succ _
  · exact Nat.le_refl _

/-- `assignPair` leaves every worker's `assigned_tasks` unchanged. -/
theorem assignPair_assigned_tasks (oid : DataObjectId) (wid : WorkerId) (s : State)
    (w : WorkerId) :
    ((assignPair oid wid s).graph.workerOf w).assigned_tasks
      = (s.graph.workerOf w).assigned_tasks := by
  simp only [assignPair, setWorker_workerOf, setObj_workerOf, Function.update_apply]
  split
  · next heq => rw [heq]
  · rfl

/-- The input-placement check loop of `assign_task` only reads the state. -/
theorem fixes_state_check_loop (l : List DataObjectId) (wid : WorkerId) :
    Fixes (fun s => s) (forEachM l (fun iid => do
      let si ← getS
      if wid ∉ (si.graph.objectOf iid).assigned ∧ (si.graph.objectOf iid).located = [] ∧
          (si.graph.objectOf iid).data = none then
        throwM "assign_task: assert failed: input with no placement and no data"
      else pure ())) := by
  refine fixes_forEachM (fun iid => ?_) l
  refine fixes_bind fixes_getS (fun si => ?_)
  exact fixes_ite (fixes_throwM _) (fixes_pure _)

/-- A successful `assign_task` run inserts the task into the scheduled
worker's `assigned_tasks` and leaves every other worker's `assigned_tasks`
unchanged. -/
theorem assign_task_assigned_tasks {tid : TaskId} {s : State} {a : Unit} {s2 : State}
    {tr : List Ev} (h : assign_task tid s = Except.ok (a, s2, tr)) :
    ∃ wid, (s.graph.taskOf tid).scheduled = some wid ∧
      ∀ w, ((s2.graph.workerOf w).assigned_tasks)
        = (if w = wid then sinsert tid ((s.graph.workerOf w).assigned_tasks)
           else (s.graph.workerOf w).assigned_tasks) := by
  unfold assign_task at h
  obtain ⟨a1, s1, t1, t2, hget, hrest, -⟩ := bind_ok h
  rw [run_getS] at hget
  simp at hget
  obtain ⟨ha1, hs1, -⟩ := hget
  subst ha1; subst hs1
  dsimp only at hrest
  rcases hsched : (s.graph.taskOf tid).scheduled with _ | wid
  · rw [hsched] at hrest
    simp [run_throwM] at hrest
  · rw [hsched] at hrest
    refine ⟨wid, rfl, ?_⟩
    simp only [run_ite] at hrest
    split at hrest
    · rw [run_throwM] at hrest
      simp at hrest
    · obtain ⟨b1, sA, u1, u2, hm1, hrest2, -⟩ := bind_ok hrest
      rw [run_modifyS] at hm1
      simp at hm1
      obtain ⟨hsA, -⟩ := hm1
      obtain ⟨b2, sB, u3, u4, hchk, hrest3, -⟩ := bind_ok hrest2
      have hsB : sB = sA := fixes_state_check_loop _ wid sA b2 sB u3 hchk
      obtain ⟨b3, sC, u5, u6, houts, hrest4, -⟩ := bind_ok hrest3
      have hC : ∀ w, ((sC.graph.workerOf w).assigned_tasks)
          = ((sB.graph.workerOf w).assigned_tasks) := by
        intro w
        have hf : Fixes (fun st => ((st.graph.workerOf w).assigned_tasks))
            (forEachM (s.graph.taskOf tid).outputs (fun oid => modifyS (assignPair oid wid))) :=
          fixes_forEachM (fun oid =>
            fixes_modifyS (fun st => assignPair_assigned_tasks oid wid st w)) _
        exact hf sB b3 sC u5 houts
      obtain ⟨b4, sD, u7, u8, hemit, hrest5, -⟩ := bind_ok hrest4
      rw [run_emit] at hemit
      simp at hemit
      obtain ⟨hsD, -⟩ := hemit
      obtain ⟨b5, sE, u9, u10, hw, hrest6, -⟩ := bind_ok hrest5
      rw [run_modifyS] at hw
      simp at hw
      obtain ⟨hsE, -⟩ := hw
      obtain ⟨b6, sF, u11, u12, ht2, hrest7, -⟩ := bind_ok hrest6
      rw [run_modifyS] at ht2
      simp at ht2
      obtain ⟨hsF, -⟩ := ht2
      have hFinal : ∀ w, ((s2.graph.workerOf w).assigned_tasks)
          = ((sF.graph.workerOf w).assigned_tasks) := by
        intro w
        have hf : Fixes (fun st => ((st.graph.workerOf w).assigned_tasks))
            (forEachM (s.graph.taskOf tid).outputs (fun oid => modifyS (assignPair oid wid))) :=
          fixes_forEachM (fun oid =>
            fixes_modifyS (fun st => assignPair_assigned_tasks oid wid st w)) _
        exact hf sF b6 s2 u12 hrest7
      intro w
      rw [hFinal w, ← hsF, ← hsE]
      by_cases hww : w = wid
      · subst hww
        rw [if_pos rfl]
        simp only [setTask_workerOf, setWorker_workerOf, Function.update_same]
        rw [← hsD, hC w, hsB, ← hsA]
        simp only [setTask_workerOf]
      · rw [if_neg hww]
        simp only [setTask_workerOf, setWorker_workerOf, Function.update_noteq hww]
        rw [← hsD, hC w, hsB, ← hsA]
        simp only [setTask_workerOf]

/-- Removing a task from a worker's ready queue leaves every worker's
`assigned_tasks` unchanged. -/
theorem queue_remove_assigned_tasks (wid : WorkerId) (tid : TaskId) (s : State)
    (w : WorkerId) :
    ((setWorker wid
        (fun v => { v with scheduled_ready_tasks := sremove tid v.scheduled_ready_tasks })
        s).graph.workerOf w).assigned_tasks
      = (s.graph.workerOf w).assigned_tasks := by
  simp only [setWorker_workerOf, Function.update_apply]
  split
  · next heq => rw [heq]
  · rfl

/-- One worker's distribution loop keeps every worker's `assigned_tasks` at
or below the 128-task over-book limit: the guard re-checks the count before
each `assign_task`, and each `assign_task` grows only the looped worker's
set, by at most one. -/
theorem distribute_worker_loop_bound :
    ∀ (fuel : Nat) (wid : WorkerId) (s : State) (a : Unit) (s2 : State) (tr : List Ev)
      (w : WorkerId),
      distribute_worker_loop fuel wid s = Except.ok (a, s2, tr) →
      ((s.graph.workerOf w).assigned_tasks).length ≤ 128 →
      ((s2.graph.workerOf w).assigned_tasks).length ≤ 128 := by
  intro fuel
  induction fuel with
  | zero =>
    intro wid s a s2 tr w h hle
    simp only [distribute_worker_loop, run_pure] at h
    simp at h
    obtain ⟨hs, -⟩ := h
    rw [← hs]
    exact hle
  | succ f ih =>
    intro wid s a s2 tr w h hle
    simp only [distribute_worker_loop] at h
    obtain ⟨a1, s1, t1, t2, hget, hrest, -⟩ := bind_ok h
    rw [run_getS] at hget
    simp at hget
    obtain ⟨ha1, hs1, -⟩ := hget
    subst ha1; subst hs1
    rcases hq : (s.graph.workerOf wid).scheduled_ready_tasks with _ | ⟨tid, rest⟩
    · rw [hq] at hrest
      simp [run_pure] at hrest
      obtain ⟨hs, -⟩ := hrest
      rw [← hs]
      exact hle
    · rw [hq] at hrest
      simp only [run_ite] at hrest
      split at hrest
      · obtain ⟨b1, sM, u1, u2, hm, hrest2, -⟩ := bind_ok hrest
        rw [run_modifyS] at hm
        simp at hm
        obtain ⟨hsM, -⟩ := hm
        obtain ⟨b2, sM2, u3, u4, hget2, hrest3, -⟩ := bind_ok hrest2
        rw [run_getS] at hget2
        simp at hget2
        obtain ⟨hb2, hsM2, -⟩ := hget2
        subst hb2; subst hsM2
        simp only [run_ite] at hrest3
        split at hrest3
        · rw [run_throwM] at hrest3
          simp at hrest3
        · obtain ⟨b3, sT, u5, u6, hassign, hloop, -⟩ := bind_ok hrest3
          obtain ⟨wid2, hsched2, hproj⟩ := assign_task_assigned_tasks hassign
          next hnotneq =>
            have hwid2 : wid2 = wid := by
              have := hsched2
              rw [not_not] at hnotneq
              rw [hnotneq] at this
              exact (Option.some.injEq _ _).mp this.symm
            have hMle : ∀ w1, ((sM.graph.workerOf w1).assigned_tasks).length
                = ((s.graph.workerOf w1).assigned_tasks).length := by
              intro w1
              rw [← hsM, queue_remove_assigned_tasks wid tid s w1]
            have hTle : ((sT.graph.workerOf w).assigned_tasks).length ≤ 128 := by
              rw [hproj w, hwid2]
              by_cases hww : w = wid
              · rw [if_pos hww]
                have h1 : ((sM.graph.workerOf w).assigned_tasks).length + 1 ≤ 128 := by
                  rw [hMle w, hww]
                  next hlt => exact Nat.succ_le_of_lt hlt
                exact le_trans (length_sinsert_le tid _) h1
              · rw [if_neg hww, hMle w]
                exact hle
            exact ih wid sT b3 s2 u6 w hloop hTle
      · rw [run_pure] at hrest
        simp at hrest
        obtain ⟨hs, -⟩ := hrest
        rw [← hs]
        exact hle

/-- C7: `distribute_tasks` assigns a scheduled ready task to a worker only
while that worker has fewer than 128 assigned tasks, so every worker whose
`assigned_tasks` has at most 128 members before the call still has at most
128 members after it — the over-book limit is never exceeded (a panicking
run leaves the state as it was). -/
theorem distribute_tasks_overbook (s : State) (w : WorkerId)
    (h : ((s.graph.workerOf w).assigned_tasks).length ≤ 128) :
    (((execSM distribute_tasks s).graph.workerOf w).assigned_tasks).length ≤ 128 := by
  have hpres : Preserves
      (fun st => ((st.graph.workerOf w).assigned_tasks).length ≤ 128) distribute_tasks := by
    unfold distribute_tasks
    refine preserves_bind preserves_getS (fun s0 => ?_)
    refine preserves_forEachM (fun wid => ?_) _
    refine preserves_bind preserves_getS (fun sw => ?_)
    intro st a s2 tr hP hrun
    exact distribute_worker_loop_bound _ wid st a s2 tr w hrun hP
  exact preserves_execSM hpres h

/-- Witness for C7 at a concrete input: the single worker of `stFin` has no
assigned tasks before `distribute_tasks` and at most 128 after. -/
theorem distribute_tasks_overbook_witness :
    ((((execSM distribute_tasks stFin).graph.workerOf wA).assigned_tasks).length ≤ 128) :=
  distribute_tasks_overbook stFin wA (by decide)

/-- C10: `register_as_worker` sets the connection's registered flag right
after the double-registration and protocol-version checks pass, before the
`worker_resources` probe and `add_worker` run (the trace order); so when
`add_worker` fails on a duplicate worker id, the error is surfaced, no
worker is added to the graph — the state is unchanged — and yet any later
`register_as_client` or `register_as_worker` call on the same connection
still fails with the already-registered error. -/
theorem register_keeps_flag_on_add_failure (b : ServerBootstrap) (version : Nat)
    (address : SocketAddr) (resources : Nat) (s : State)
    (hreg : b.registered = false) (hv : version = WORKER_PROTOCOL_VERSION)
    (hdup : (if address.ip = 0 then { ip := b.address.ip, port := address.port } else address)
      ∈ s.graph.workerIds) :
    (register_as_worker b version address resources s).result
      = Except.error (RpcError.stateError "State already contains worker") ∧
    (register_as_worker b version address resources s).state = s ∧
    (register_as_worker b version address resources s).bootstrap.registered = true ∧
    (register_as_worker b version address resources s).trace
      = [BEv.setRegistered, BEv.rpcWorkerResources, BEv.addWorkerCalled] ∧
    (∀ v2 s2, (register_as_client
        (register_as_worker b version address resources s).bootstrap v2 s2).result
      = Except.error RpcError.alreadyRegistered) ∧
    (∀ v2 a2 r2 s2, (register_as_worker
        (register_as_worker b version address resources s).bootstrap v2 a2 r2 s2).result
      = Except.error RpcError.alreadyRegistered) := by
  have hadd : add_worker
      (if address.ip = 0 then { ip := b.address.ip, port := address.port } else address)
      resources s = Except.error "State already contains worker" := by
    unfold add_worker
    rw [run_bind, run_getS]
    simp [run_ite, if_pos hdup, run_throwM]
  have hRw : register_as_worker b version address resources s
      = { bootstrap := { b with registered := true }, state := s,
          trace := [BEv.setRegistered, BEv.rpcWorkerResources, BEv.addWorkerCalled],
          result := Except.error (RpcError.stateError "State already contains worker") } := by
    unfold register_as_worker
    rw [if_neg (by rw [hreg]; exact Bool.false_ne_true), if_neg (by rw [hv]; exact fun hc => hc rfl)]
    dsimp only
    rw [hadd]
  rw [hRw]
  refine ⟨rfl, rfl, rfl, rfl, ?_, ?_⟩
  · intro v2 s2
    unfold register_as_client
    rw [if_pos rfl]
  · intro v2 a2 r2 s2
    unfold register_as_worker
    rw [if_pos rfl]

/-- Witness for C10 at a concrete input: bootstrap `bC10`, announced address
3.4 (already a worker id of `stC10`), with concrete later calls. -/
theorem register_keeps_flag_on_add_failure_witness :
    (register_as_worker bC10 1 { ip := 3, port := 4 } 8 stC10).result
      = Except.error (RpcError.stateError "State already contains worker") ∧
    (register_as_worker bC10 1 { ip := 3, port := 4 } 8 stC10).state = stC10 ∧
    (register_as_worker bC10 1 { ip := 3, port := 4 } 8 stC10).bootstrap.registered = true ∧
    (register_as_worker bC10 1 { ip := 3, port := 4 } 8 stC10).trace
      = [BEv.setRegistered, BEv.rpcWorkerResources, BEv.addWorkerCalled] ∧
    (register_as_client (register_as_worker bC10 1 { ip := 3, port := 4 } 8 stC10).bootstrap
        1 emptyState).result = Except.error RpcError.alreadyRegistered ∧
    (register_as_worker (register_as_worker bC10 1 { ip := 3, port := 4 } 8 stC10).bootstrap
        1 { ip := 0, port := 5 } 2 emptyState).result
      = Except.error RpcError.alreadyRegistered := by
  obtain ⟨h1, h2, h3, h4, h5, h6⟩ := register_keeps_flag_on_add_failure bC10 1
    { ip := 3, port := 4 } 8 stC10 rfl rfl (by decide)
  exact ⟨h1, h2, h3, h4, h5 1 emptyState, h6 1 { ip := 0, port := 5 } 2 emptyState⟩

/-- C8: the spec's intended `remove_worker` forcibly unassigns the worker's
tasks and objects and returns successfully; the source body is
`unimplemented!()` (state.rs 64), so every call panics instead. -/
theorem remove_worker_always_panics (w : WorkerId) (s : State) :
    remove_worker w s = Except.error "remove_worker: not implemented" := rfl

/-- C9: in `register_as_worker`, whenever a worker id is returned, it is the
announced address, except that an unspecified announced IP is replaced by the
IP of the incoming connection while keeping the announced port
(bootstrap.rs 97-102). -/
theorem register_as_worker_worker_id (b : ServerBootstrap) (version : Nat)
    (address : SocketAddr) (resources : Nat) (s : State) (wid : WorkerId)
    (h : (register_as_worker b version address resources s).result = Except.ok wid) :
    wid = if address.ip = 0 then { ip := b.address.ip, port := address.port } else address := by
  unfold register_as_worker at h
  by_cases hreg : b.registered
  · simp [hreg] at h
  · by_cases hv : version = WORKER_PROTOCOL_VERSION
    · simp [hreg, hv] at h
      rcases hw : add_worker (if address.ip = 0
          then { ip := b.address.ip, port := address.port } else address) resources s with e | r
      · rw [hw] at h; simp at h
      · rw [hw] at h
        obtain ⟨w1, s1, tr1⟩ := r
        simp at h
        exact h.symm
    · simp [hreg, hv] at h

/-- Witness for C9 at a concrete input: an announced address with
unspecified IP and port 9000, arriving on a connection from IP 5. -/
theorem register_as_worker_worker_id_witness :
    ({ ip := 5, port := 9000 } : WorkerId)
      = if (0 : Nat) = 0 then { ip := 5, port := 9000 }
        else { ip := 0, port := 9000 } := by
  have h : (register_as_worker { registered := false, address := wA } 1
      { ip := 0, port := 9000 } 8 emptyState).result
        = Except.ok { ip := 5, port := 9000 } := rfl
  have := register_as_worker_worker_id { registered := false, address := wA } 1
      { ip := 0, port := 9000 } 8 emptyState { ip := 5, port := 9000 } h
  simpa using this


end Rain
